import Mathlib

/-!
# Nearest-gene annotation of SNP markers (`upstream.go`)

A shallow embedding of the Go program `upstream.go` and theorems about it.

Conventions of the embedding

* A Go `string` is a byte sequence.  It is modelled by `GoString := List Char`,
  one `Char` per byte; every string constant of the program is ASCII.
* A Go `uint32` is modelled by a `Nat` below `2 ^ 32`; where the program adds or
  subtracts, the wrap-around is written out (`% 4294967296`).
* A run-time panic and a fatal exit (`Die`, `MustParseUint`, an index out of
  range, `panic(...)`) are modelled by the result `none`.
* A Go `map` is modelled by an association list with at most one pair per key,
  in insertion order.
* Of the library `gomiscutils`, `MustParseUint` is modelled after
  `strconv.ParseUint`, fatal on an error, and `TrimNewLine` is a parameter of
  the resolver; `Readline` is the list of lines given to a pass.
-/

namespace Upstream

/-- A Go string: a sequence of bytes, one `Char` per byte. -/
abbrev GoString := List Char

/-! ## Candidate sets (`RS2GENE_DIST_INFO_LIST`) -/

/-- The Go struct `GENE_DIST_INFO`: gene id, gene name, distance. -/
structure GENE_DIST_INFO where
  GENEID : Nat
  GENENAME : GoString
  DIST : Nat
deriving DecidableEq, Repr

/-- The Go struct `RS2GENE_DIST_INFO_LIST`: the slice `DISTINFO` of candidates. -/
structure RS2GENE_DIST_INFO_LIST where
  DISTINFO : List GENE_DIST_INFO
deriving DecidableEq, Repr

namespace RS2GENE_DIST_INFO_LIST

/-- The method `RemoveAll`: `info.DISTINFO = info.DISTINFO[:0]`. -/
def RemoveAll (info : RS2GENE_DIST_INFO_LIST) : RS2GENE_DIST_INFO_LIST :=
  { info with DISTINFO := info.DISTINFO.take 0 }

/-- The label `APPEND` of `Push`: `info.DISTINFO = append(info.DISTINFO, r)`. -/
def APPEND (info : RS2GENE_DIST_INFO_LIST) (r : GENE_DIST_INFO) : RS2GENE_DIST_INFO_LIST :=
  { info with DISTINFO := info.DISTINFO ++ [r] }

/-- The method `Push`, with the global `Dist` as a parameter.  The cases of the
`switch` are tried in order; `info.DISTINFO[0]` panics (`none`) on an empty slice.
After `RemoveAll` the `fallthrough` enters the body of the next case, which is
`goto APPEND`. -/
def Push (Dist : Int) (info : RS2GENE_DIST_INFO_LIST) (r : GENE_DIST_INFO) :
    Option RS2GENE_DIST_INFO_LIST :=
  if Dist < 0 then
    if (info.DISTINFO.length : Int) < 0 then
      some (info.APPEND r)
    else
      match info.DISTINFO[0]? with
      | none => none
      | some first =>
        if first.DIST > r.DIST then
          some (info.RemoveAll.APPEND r)
        else if first.DIST = r.DIST then
          some (info.APPEND r)
        else
          some info
  else if (r.DIST : Int) > Dist then
    some info
  else
    some (info.APPEND r)

/-- The method `Dist`: `info.DISTINFO[0].DIST`, a panic on an empty slice. -/
def Dist (info : RS2GENE_DIST_INFO_LIST) : Option Nat :=
  (info.DISTINFO[0]?).map GENE_DIST_INFO.DIST

/-- The method `InGeneID`. -/
def InGeneID (info : RS2GENE_DIST_INFO_LIST) (geneid : Nat) : Bool :=
  info.DISTINFO.any (fun i => decide (geneid = i.GENEID))

/-- The method `Pop`: the result (`none` for `nil`) and the set afterwards. -/
def Pop (info : RS2GENE_DIST_INFO_LIST) : Option GENE_DIST_INFO × RS2GENE_DIST_INFO_LIST :=
  let l := info.DISTINFO.length
  if l = 0 then
    (none, info)
  else
    (info.DISTINFO[l - 1]?, { info with DISTINFO := info.DISTINFO.take (l - 1) })

/-- Successive calls of `Push`, one per candidate of the list, as the loops of
`ParseRSList` make them on one of the two sets; a panic ends the run. -/
def pushAll (Dist : Int) :
    RS2GENE_DIST_INFO_LIST → List GENE_DIST_INFO → Option RS2GENE_DIST_INFO_LIST
  | info, [] => some info
  | info, r :: rs =>
    match info.Push Dist r with
    | none => none
    | some info1 => pushAll Dist info1 rs

end RS2GENE_DIST_INFO_LIST

/-- The empty candidate set, as `make([]*GENE_DIST_INFO, 0, 2)` creates it and as
`RemoveAll` leaves it. -/
def emptySet : RS2GENE_DIST_INFO_LIST := ⟨[]⟩

open RS2GENE_DIST_INFO_LIST

/-! ## Distances of the resolver (`ParseRSList`) -/

/-- The Go struct `GENEINFO`: gene name, 5' and 3' positions, source tag. -/
structure GENEINFO where
  GENENAME : GoString
  P5 : Nat
  P3 : Nat
  MAP : GoString
deriving DecidableEq, Repr

/-- The closure `reachBottom` of `ParseRSList`: `a - b`, floored at zero. -/
def reachBottom (a b : Nat) : Nat :=
  if a > b then a - b else 0

/-- The function `simpleSubstractAbs`. -/
def simpleSubstractAbs (a b : Nat) : Nat :=
  if a ≥ b then a - b else b - a

/-- The function `isBetweenRange`: the bounds are swapped when `s > e`. -/
def isBetweenRange (s e i : Nat) : Bool :=
  let se : Nat × Nat := if s > e then (e, s) else (s, e)
  if se.1 ≤ i ∧ se.2 ≥ i then true else false

/-- Addition of two `uint32` values, as Go computes it: modulo `2 ^ 32`. -/
def add32 (a b : Nat) : Nat :=
  (a + b) % 4294967296

/-- The body of the loop of `ParseRSList` over `PLUS` (lines 410-416): the pair
`(p5dist, p3dist)` for one plus-strand gene and the marker position `pos`. -/
def plusDist (ginfo : GENEINFO) (pos : Nat) : Nat × Nat :=
  if isBetweenRange (reachBottom ginfo.P5 2000) (add32 ginfo.P3 500) pos then
    (0, 0)
  else
    (simpleSubstractAbs ginfo.P5 pos, simpleSubstractAbs ginfo.P3 pos)

/-- The body of the loop of `ParseRSList` over `MINUS` (lines 421-427): the pair
`(p5dist, p3dist)` for one minus-strand gene and the marker position `pos`. -/
def minusDist (ginfo : GENEINFO) (pos : Nat) : Nat × Nat :=
  if isBetweenRange (reachBottom ginfo.P3 500) (add32 ginfo.P5 2000) pos then
    (0, 0)
  else
    (simpleSubstractAbs ginfo.P5 pos, simpleSubstractAbs ginfo.P3 pos)

/-- The two candidates that the loop over `PLUS` pushes for the gene `gid`
(lines 417-418): the first goes to the 5' set, the second to the 3' set. -/
def plusCandidates (gid : Nat) (ginfo : GENEINFO) (pos : Nat) :
    GENE_DIST_INFO × GENE_DIST_INFO :=
  (⟨gid, ginfo.GENENAME, (plusDist ginfo pos).1⟩, ⟨gid, ginfo.GENENAME, (plusDist ginfo pos).2⟩)

/-- The two candidates that the loop over `MINUS` pushes for the gene `gid`
(lines 428-429). -/
def minusCandidates (gid : Nat) (ginfo : GENEINFO) (pos : Nat) :
    GENE_DIST_INFO × GENE_DIST_INFO :=
  (⟨gid, ginfo.GENENAME, (minusDist ginfo pos).1⟩, ⟨gid, ginfo.GENENAME, (minusDist ginfo pos).2⟩)

/-! ## Go maps as association lists -/

/-- The lookup `m[k]` of a Go map, with its `ok` flag as `Option`. -/
def mapGet {K V : Type} [DecidableEq K] : List (K × V) → K → Option V
  | [], _ => none
  | (k1, v1) :: rest, k => if k1 = k then some v1 else mapGet rest k

/-- The assignment `m[k] = v` of a Go map: an existing key keeps its place. -/
def mapSet {K V : Type} [DecidableEq K] : List (K × V) → K → V → List (K × V)
  | [], k, v => [(k, v)]
  | (k1, v1) :: rest, k, v =>
    if k1 = k then (k, v) :: rest else (k1, v1) :: mapSet rest k v

/-! ## The index (`SEQGENEDB`) -/

/-- The Go type `GENES`: `map[uint32]*GENEINFO`. -/
abbrev GENES := List (Nat × GENEINFO)

/-- The Go struct `ORIENT`: the genes of the plus and of the minus strand. -/
structure ORIENT where
  PLUS : GENES
  MINUS : GENES
deriving DecidableEq, Repr

/-- The Go type `CONTIG`: `map[string]*ORIENT`. -/
abbrev CONTIG := List (GoString × ORIENT)

/-- The Go type `SEQGENEDB`: `[24]CONTIG`, a list of 24 slots; an index outside
the list is the panic of an index out of range. -/
abbrev SEQGENEDB := List CONTIG

/-- The index as `main` creates it: 24 empty maps. -/
def emptyDB : SEQGENEDB := List.replicate 24 []

/-- The constant `GRCh = "GRCh37"`. -/
def GRCh : GoString := ['G', 'R', 'C', 'h', '3', '7']

/-- The constant `CHR7 = "CRA_TCAGchr7v2"`. -/
def CHR7 : GoString :=
  ['C', 'R', 'A', '_', 'T', 'C', 'A', 'G', 'c', 'h', 'r', '7', 'v', '2']

/-- Lines 401-430 of `ParseRSList` for one marker at position `pos` whose contig
has the genes `o`: both sets are cleared, then the candidates of every gene of
`PLUS` and of `MINUS` are pushed, the genes of each map taken in the order of
the association list.  The result is the 5' set and the 3' set. -/
def resolveContig (Dist : Int) (o : ORIENT) (pos : Nat) :
    Option (RS2GENE_DIST_INFO_LIST × RS2GENE_DIST_INFO_LIST) :=
  let cands : List (GENE_DIST_INFO × GENE_DIST_INFO) :=
    o.PLUS.map (fun e => plusCandidates e.1 e.2 pos) ++
      o.MINUS.map (fun e => minusCandidates e.1 e.2 pos)
  match pushAll Dist emptySet.RemoveAll (cands.map Prod.fst),
      pushAll Dist emptySet.RemoveAll (cands.map Prod.snd) with
  | some l5, some l3 => some (l5, l3)
  | _, _ => none

/-! ## Regular expressions and number parsing -/

/-- The tail `(\|.+)?$` of `chrNumPattern`: nothing, or `|` and at least one
byte, none of them a newline (`.` does not match `\n`). -/
def chrNumTail (rest : GoString) : Bool :=
  match rest with
  | [] => true
  | c :: cs => decide (c = '|') && !cs.isEmpty && cs.all (fun d => decide (d ≠ '\n'))

/-- The class `[1-9]`. -/
def isDigit19 (c : Char) : Bool := decide (49 ≤ c.toNat ∧ c.toNat ≤ 57)

/-- The class `[0-9]`. -/
def isDigit09 (c : Char) : Bool := decide (48 ≤ c.toNat ∧ c.toNat ≤ 57)

/-- The function `parseChrNum`: `chrNumPattern.FindStringSubmatch(num)[1]` for
`chrNumPattern = ^([1-9][0-9]?|[Xx]|[Yy])(\|.+)?$`; `none` when there is no
match (the index into the `nil` result panics).  The alternatives are tried in
order, the optional digit greedily. -/
def parseChrNum (num : GoString) : Option GoString :=
  match num with
  | [] => none
  | c :: cs =>
    if isDigit19 c then
      match cs with
      | [] => some [c]
      | d :: ds =>
        if isDigit09 d && chrNumTail ds then some [c, d]
        else if chrNumTail cs then some [c]
        else none
    else if c = 'X' ∨ c = 'x' ∨ c = 'Y' ∨ c = 'y' then
      if chrNumTail cs then some [c] else none
    else none

/-- The test `chrNumPattern.MatchString`. -/
def chrNumPattern_MatchString (s : GoString) : Bool :=
  (parseChrNum s).isSome

/-- The test `strings.HasPrefix(s, p)`. -/
def startsWith : GoString → GoString → Bool
  | _, [] => true
  | [], _ :: _ => false
  | c :: cs, p :: ps => decide (c = p) && startsWith cs ps

/-- The test `groupLabelPattern.MatchString` for `^GRCh37\.p10`. -/
def groupLabelPattern_MatchString (s : GoString) : Bool :=
  startsWith s ['G', 'R', 'C', 'h', '3', '7', '.', 'p', '1', '0']

/-- The test `chr7groupLabelPattern.MatchString` for `^CRA_TCAGchr7v2`. -/
def chr7groupLabelPattern_MatchString (s : GoString) : Bool :=
  startsWith s CHR7

/-- The decimal digits of `strconv.ParseUint`, most significant first. -/
def parseDigits : GoString → Nat → Option Nat
  | [], acc => some acc
  | c :: cs, acc =>
    if isDigit09 c then parseDigits cs (acc * 10 + (c.toNat - 48)) else none

/-- The library call `MustParseUint(s, 10, 32)`: `strconv.ParseUint` in base 10
with 32 bits, fatal (`none`) on an empty string, on a byte that is not a digit
and on a value above `2 ^ 32 - 1`. -/
def MustParseUint (s : GoString) : Option Nat :=
  match s with
  | [] => none
  | _ :: _ =>
    match parseDigits s 0 with
    | none => none
    | some n => if n < 4294967296 then some n else none

/-- The call `strings.Split(line, "\t")`. -/
def splitTab : GoString → List GoString
  | [] => [[]]
  | c :: cs =>
    if c = '\t' then [] :: splitTab cs
    else
      match splitTab cs with
      | [] => [[c]]
      | f :: fs => (c :: f) :: fs

/-! ## Ingestion (`ReadDBFile`, `ReadDBFileForChr7`) -/

/-- The constant `field_isGene`. -/
def field_isGene : Nat := 11
/-- The constant `field_chrNum`. -/
def field_chrNum : Nat := 1
/-- The constant `field_groupLabel`. -/
def field_groupLabel : Nat := 12
/-- The constant `field_contig`. -/
def field_contig : Nat := 5
/-- The constant `field_orient`. -/
def field_orient : Nat := 8
/-- The constant `field_geneID`. -/
def field_geneID : Nat := 10
/-- The constant `field_geneName`. -/
def field_geneName : Nat := 9
/-- The variable `field_cStart`, set by `main` from the flag `chrDist`:
`field_chrStart = 2` or `field_ctgStart = 6`. -/
def field_cStart (chrDist : Bool) : Nat := if chrDist then 2 else 6
/-- The variable `field_cEnd`, set by `main` from the flag `chrDist`:
`field_chrEnd = 3` or `field_ctgEnd = 7`. -/
def field_cEnd (chrDist : Bool) : Nat := if chrDist then 3 else 7

/-- The seven results of `parseDBFieldsInfo`. -/
structure DBFields where
  contig : GoString
  orient : GoString
  gname : GoString
  chrnum : Nat
  ctg1 : Nat
  ctg2 : Nat
  gid : Nat
deriving DecidableEq, Repr

/-- The function `parseDBFieldsInfo`; `none` is a panic (a field that does not
exist, a gene id field shorter than 7 bytes) or the fatal exit of
`MustParseUint`.  The subtraction `- 1` is that of `uint32`. -/
def parseDBFieldsInfo (chrDist : Bool) (f : List GoString) : Option DBFields :=
  match f[field_chrNum]? with
  | none => none
  | some num =>
    match parseChrNum num with
    | none => none
    | some c =>
      let chrnum_string : GoString :=
        if c = ['x'] ∨ c = ['X'] then ['2', '3']
        else if c = ['y'] ∨ c = ['Y'] then ['2', '4']
        else c
      match f[field_contig]?, f[field_orient]?, MustParseUint chrnum_string,
        (f[field_cStart chrDist]?).bind MustParseUint,
        (f[field_cEnd chrDist]?).bind MustParseUint, f[field_geneName]?,
        (f[field_geneID]?).bind
          (fun g => if g.length < 7 then none else MustParseUint (g.drop 7)) with
      | some contig, some orient, some n, some ctg1, some ctg2, some gname, some gid =>
        some ⟨contig, orient, gname, (n + 4294967295) % 4294967296, ctg1, ctg2, gid⟩
      | _, _, _, _, _, _, _ => none

/-- The state of the ingestion: the index `db` and the global set `chr7genes`
(a `map[uint32]struct{}`). -/
structure DBState where
  db : SEQGENEDB
  chr7genes : List (Nat × Unit)
deriving DecidableEq, Repr

/-- The state at the start of `ReadDBFile` in `main`. -/
def initState : DBState := ⟨emptyDB, []⟩

/-- The outcome of the filters at the head of a loop body. -/
inductive Filtered where
  | skip : Filtered
  | fatal : Filtered
  | accept : List GoString → Filtered
deriving DecidableEq, Repr

/-- The filters of `ReadDBFile` (lines 162-177): `skip` is `continue`, `fatal`
the panic of a field index out of range, `accept` carries the fields. -/
def ReadDBFile_filter (line : GoString) : Filtered :=
  if startsWith line ['#'] then .skip
  else
    let fields := splitTab line
    match fields[field_isGene]? with
    | none => .fatal
    | some isGene =>
      if isGene ≠ ['G', 'E', 'N', 'E'] then .skip
      else
        match fields[field_chrNum]? with
        | none => .fatal
        | some num =>
          if !chrNumPattern_MatchString num then .skip
          else
            match fields[field_groupLabel]? with
            | none => .fatal
            | some label =>
              if !groupLabelPattern_MatchString label then .skip else .accept fields

/-- The filters of `ReadDBFileForChr7` (lines 237-259). -/
def ReadDBFileForChr7_filter (line : GoString) : Filtered :=
  if startsWith line ['#'] then .skip
  else
    let fields := splitTab line
    match fields[field_chrNum]? with
    | none => .fatal
    | some num =>
      if !chrNumPattern_MatchString num then .skip
      else if parseChrNum num ≠ some ['7'] then .skip
      else
        match fields[field_isGene]? with
        | none => .fatal
        | some isGene =>
          if isGene ≠ ['G', 'E', 'N', 'E'] then .skip
          else if !chrNumPattern_MatchString num then .skip
          else
            match fields[field_groupLabel]? with
            | none => .fatal
            | some label =>
              if !chr7groupLabelPattern_MatchString label then .skip else .accept fields

/-- The index with the gene `g` stored under `gid` in the `PLUS` (`plus = true`)
or `MINUS` map of the `ORIENT` `o` of `contig` in slot `chrnum`, whose map of
contigs is `ctgs`. -/
def putGene (db : SEQGENEDB) (chrnum : Nat) (ctgs : CONTIG) (contig : GoString) (o : ORIENT)
    (plus : Bool) (gid : Nat) (g : GENEINFO) : SEQGENEDB :=
  db.set chrnum
    (mapSet ctgs contig
      (if plus then { o with PLUS := mapSet o.PLUS gid g }
       else { o with MINUS := mapSet o.MINUS gid g }))

/-- The body of the loop of `ReadDBFile` after parsing (lines 181-205).  The
`ORIENT` at hand is the one of `contig` or, created by lines 181-183, an empty
one; an entry that is absent is created with the tag `GRCh` (and the gene id
recorded in `chr7genes` when `chrnum+1 == 7`), then the coordinates are
assigned.  Another orientation panics. -/
def ReadDBFile_insert (st : DBState) (p : DBFields) : Option DBState :=
  match st.db[p.chrnum]? with
  | none => none
  | some ctgs =>
    let o : ORIENT := (mapGet ctgs p.contig).getD ⟨[], []⟩
    if p.orient = ['+'] then
      match mapGet o.PLUS p.gid with
      | none =>
        some ⟨putGene st.db p.chrnum ctgs p.contig o true p.gid
            { (⟨p.gname, 0, 0, GRCh⟩ : GENEINFO) with P5 := p.ctg1, P3 := p.ctg2 },
          if (p.chrnum + 1) % 4294967296 = 7 then mapSet st.chr7genes p.gid ()
          else st.chr7genes⟩
      | some g =>
        some ⟨putGene st.db p.chrnum ctgs p.contig o true p.gid
            { g with P5 := p.ctg1, P3 := p.ctg2 }, st.chr7genes⟩
    else if p.orient = ['-'] then
      match mapGet o.MINUS p.gid with
      | none =>
        some ⟨putGene st.db p.chrnum ctgs p.contig o false p.gid
            { (⟨p.gname, 0, 0, GRCh⟩ : GENEINFO) with P3 := p.ctg1, P5 := p.ctg2 },
          if (p.chrnum + 1) % 4294967296 = 7 then mapSet st.chr7genes p.gid ()
          else st.chr7genes⟩
      | some g =>
        some ⟨putGene st.db p.chrnum ctgs p.contig o false p.gid
            { g with P3 := p.ctg1, P5 := p.ctg2 }, st.chr7genes⟩
    else none

/-- The body of the loop of `ReadDBFileForChr7` after parsing (lines 262-285):
a gene id of `chr7genes` is skipped; otherwise an absent entry is created with
the tag `CHR7` and its coordinates, a present one is left as it is. -/
def ReadDBFileForChr7_insert (st : DBState) (p : DBFields) : Option DBState :=
  if (mapGet st.chr7genes p.gid).isSome then some st
  else
    match st.db[p.chrnum]? with
    | none => none
    | some ctgs =>
      let o : ORIENT := (mapGet ctgs p.contig).getD ⟨[], []⟩
      if p.orient = ['+'] then
        match mapGet o.PLUS p.gid with
        | none =>
          some ⟨putGene st.db p.chrnum ctgs p.contig o true p.gid
              { (⟨p.gname, 0, 0, CHR7⟩ : GENEINFO) with P5 := p.ctg1, P3 := p.ctg2 },
            st.chr7genes⟩
        | some _ => some ⟨st.db.set p.chrnum (mapSet ctgs p.contig o), st.chr7genes⟩
      else if p.orient = ['-'] then
        match mapGet o.MINUS p.gid with
        | none =>
          some ⟨putGene st.db p.chrnum ctgs p.contig o false p.gid
              { (⟨p.gname, 0, 0, CHR7⟩ : GENEINFO) with P3 := p.ctg1, P5 := p.ctg2 },
            st.chr7genes⟩
        | some _ => some ⟨st.db.set p.chrnum (mapSet ctgs p.contig o), st.chr7genes⟩
      else none

/-- One iteration of the loop of `ReadDBFile` on one line. -/
def ReadDBFile_step (chrDist : Bool) (st : DBState) (line : GoString) : Option DBState :=
  match ReadDBFile_filter line with
  | .skip => some st
  | .fatal => none
  | .accept fields =>
    match parseDBFieldsInfo chrDist fields with
    | none => none
    | some p => ReadDBFile_insert st p

/-- One iteration of the loop of `ReadDBFileForChr7` on one line. -/
def ReadDBFileForChr7_step (chrDist : Bool) (st : DBState) (line : GoString) :
    Option DBState :=
  match ReadDBFileForChr7_filter line with
  | .skip => some st
  | .fatal => none
  | .accept fields =>
    match parseDBFieldsInfo chrDist fields with
    | none => none
    | some p => ReadDBFileForChr7_insert st p

/-- The method `ReadDBFile` on the lines of the database file. -/
def ReadDBFile (chrDist : Bool) : DBState → List GoString → Option DBState
  | st, [] => some st
  | st, line :: rest =>
    match ReadDBFile_step chrDist st line with
    | none => none
    | some st1 => ReadDBFile chrDist st1 rest

/-- The method `ReadDBFileForChr7` on the lines of the database file. -/
def ReadDBFileForChr7 (chrDist : Bool) : DBState → List GoString → Option DBState
  | st, [] => some st
  | st, line :: rest =>
    match ReadDBFileForChr7_step chrDist st line with
    | none => none
    | some st1 => ReadDBFileForChr7 chrDist st1 rest

/-- The entry `db[slot][contig].PLUS[gid]` (`plus = true`) or
`db[slot][contig].MINUS[gid]`, when the slot, the contig and the gene exist. -/
def lookupGene (db : SEQGENEDB) (slot : Nat) (contig : GoString) (plus : Bool) (gid : Nat) :
    Option GENEINFO :=
  match db[slot]? with
  | none => none
  | some ctgs =>
    match mapGet ctgs contig with
    | none => none
    | some o => mapGet (if plus then o.PLUS else o.MINUS) gid

/-- The record that pass 1 accepts and parses from a line, if it does. -/
def accepted1 (chrDist : Bool) (line : GoString) : Option DBFields :=
  match ReadDBFile_filter line with
  | .accept fields => parseDBFieldsInfo chrDist fields
  | _ => none

/-- The record that pass 2 accepts and parses from a line, if it does. -/
def accepted2 (chrDist : Bool) (line : GoString) : Option DBFields :=
  match ReadDBFileForChr7_filter line with
  | .accept fields => parseDBFieldsInfo chrDist fields
  | _ => none

/-- The strand of a parsed record: `true` for `"+"`. -/
def DBFields.plus (p : DBFields) : Bool := decide (p.orient = ['+'])

/-- The strand-dependent assignment of the two coordinates of a record to an
entry with the given name and tag: `P5, P3 = ctg1, ctg2` on the plus strand,
`P3, P5 = ctg1, ctg2` on the minus strand. -/
def entryOf (name tag : GoString) (p : DBFields) : GENEINFO :=
  if p.plus then ⟨name, p.ctg1, p.ctg2, tag⟩ else ⟨name, p.ctg2, p.ctg1, tag⟩

/-- The orientation string of a strand: `"+"` for the `PLUS` map (`plus = true`),
`"-"` for the `MINUS` map. -/
def strandSign (plus : Bool) : GoString := if plus then ['+'] else ['-']

/-- The record `p` addresses the entry `(contig, strand, gid)` of its slot. -/
def DBFields.hitsKey (p : DBFields) (contig : GoString) (plus : Bool) (gid : Nat) : Bool :=
  decide (p.contig = contig) && decide (p.orient = strandSign plus) && decide (p.gid = gid)

/-- The first record among those that pass 2 accepts from the lines `recs`, in
file order, that addresses the entry `(contig, strand, gid)`. -/
def firstAccepted2 (chrDist : Bool) (recs : List GoString) (contig : GoString) (plus : Bool)
    (gid : Nat) : Option DBFields :=
  (recs.filterMap (accepted2 chrDist)).find? (fun p => p.hitsKey contig plus gid)

/-- The invariant of pass 1 started on the empty index, after the lines `pre`:
the index has 24 slots; `chr7genes` holds exactly the gene ids of the accepted
records of slot 6; every entry of slot 6 has its gene id in `chr7genes`; every
entry has the tag `GRCh` and the coordinates of an accepted record of `pre`
that addresses it. -/
structure PrimaryInv (chrDist : Bool) (pre : List GoString) (st : DBState) : Prop where
  len : st.db.length = 24
  seen : ∀ line ∈ pre, ∀ p : DBFields, accepted1 chrDist line = some p → p.chrnum = 6 →
    (mapGet st.chr7genes p.gid).isSome = true
  seen_only : ∀ gd : Nat, (mapGet st.chr7genes gd).isSome = true →
    ∃ line ∈ pre, ∃ p : DBFields, accepted1 chrDist line = some p ∧ p.chrnum = 6 ∧ p.gid = gd
  slot6 : ∀ (c : GoString) (pl : Bool) (gd : Nat) (info : GENEINFO),
    lookupGene st.db 6 c pl gd = some info → (mapGet st.chr7genes gd).isSome = true
  entry : ∀ (slot : Nat) (c : GoString) (pl : Bool) (gd : Nat) (info : GENEINFO),
    lookupGene st.db slot c pl gd = some info →
      info.MAP = GRCh ∧
        ∃ line ∈ pre, ∃ p : DBFields, accepted1 chrDist line = some p ∧ p.chrnum = slot ∧
          p.hitsKey c pl gd = true ∧ info = entryOf info.GENENAME GRCh p

/-- The invariant of pass 2 started in the state `st0`, after the lines `pre`:
`chr7genes` and the number of slots are those of `st0`; the slots other than 6
are those of `st0`; every entry of `st0` is still there; an entry of slot 6
whose gene id is in `chr7genes` is as in `st0`; an entry of slot 6 that `st0`
lacks and whose gene id is not in `chr7genes` is the one made from the first
accepted record of `pre` that addresses it; every accepted record of `pre`
whose gene id is not in `chr7genes` has orientation `"+"` or `"-"`. -/
structure AlternateInv (chrDist : Bool) (st0 : DBState) (pre : List GoString)
    (st : DBState) : Prop where
  seen : st.chr7genes = st0.chr7genes
  len : st.db.length = st0.db.length
  slots : ∀ i : Nat, i ≠ 6 → st.db[i]? = st0.db[i]?
  keep : ∀ (slot : Nat) (c : GoString) (pl : Bool) (gd : Nat) (info : GENEINFO),
    lookupGene st0.db slot c pl gd = some info → lookupGene st.db slot c pl gd = some info
  primary : ∀ (c : GoString) (pl : Bool) (gd : Nat),
    (mapGet st0.chr7genes gd).isSome = true →
      lookupGene st.db 6 c pl gd = lookupGene st0.db 6 c pl gd
  fresh : ∀ (c : GoString) (pl : Bool) (gd : Nat),
    (mapGet st0.chr7genes gd).isSome = false → lookupGene st0.db 6 c pl gd = none →
      lookupGene st.db 6 c pl gd =
        (firstAccepted2 chrDist pre c pl gd).map (fun p => entryOf p.gname CHR7 p)
  oriented : ∀ line ∈ pre, ∀ p : DBFields, accepted2 chrDist line = some p →
    (mapGet st0.chr7genes p.gid).isSome = false → ∃ plus : Bool, p.orient = strandSign plus

/-- A line of the database file from its fields: the fields joined by tabs. -/
def mkLine (fields : List String) : GoString :=
  List.intercalate ['\t'] (fields.map String.toList)

/-- A line of chromosome 7 for gene 100 (`GENEA`, contig `NT_1`, plus strand) in
the primary assembly, with the contig coordinates 1000 and 2000. -/
def examplePrimary : GoString :=
  mkLine ["9606", "7", "100", "200", "+", "NT_1", "1000", "2000", "+", "GENEA",
    "GeneID:100", "GENE", "GRCh37.p10-Primary Assembly", "-", "best"]

/-- A line for the same gene 100 in the alternate assembly of chromosome 7, with
the contig coordinates 1500 and 2500. -/
def exampleAlternate : GoString :=
  mkLine ["9606", "7", "150", "250", "+", "NT_1", "1500", "2500", "+", "GENEA",
    "GeneID:100", "GENE", "CRA_TCAGchr7v2", "-", "best"]

/-- A line for gene 200 (`GENEB`, contig `NT_2`, minus strand), which is in the
alternate assembly of chromosome 7 only, with the contig coordinates 3000 and
4000. -/
def exampleAlternateOnly : GoString :=
  mkLine ["9606", "7", "300", "400", "-", "NT_2", "3000", "4000", "-", "GENEB",
    "GeneID:200", "GENE", "CRA_TCAGchr7v2", "-", "best"]

/-- A database file of the three example lines. -/
def exampleRecs : List GoString :=
  [examplePrimary, exampleAlternate, exampleAlternateOnly]

/-- The slot of chromosome 7 after pass 1 over `exampleRecs`. -/
def exampleSlot1 : CONTIG :=
  [("NT_1".toList, ⟨[(100, ⟨"GENEA".toList, 1000, 2000, GRCh⟩)], []⟩)]

/-- The slot of chromosome 7 after pass 2 over `exampleRecs`. -/
def exampleSlot2 : CONTIG :=
  [("NT_1".toList, ⟨[(100, ⟨"GENEA".toList, 1000, 2000, GRCh⟩)], []⟩),
    ("NT_2".toList, ⟨[], [(200, ⟨"GENEB".toList, 4000, 3000, CHR7⟩)]⟩)]

/-- The state after pass 1 over `exampleRecs`. -/
def exampleState1 : DBState :=
  ⟨List.replicate 6 [] ++ exampleSlot1 :: List.replicate 17 [], [(100, ())]⟩

/-- The state after pass 1 and pass 2 over `exampleRecs`. -/
def exampleState2 : DBState :=
  ⟨List.replicate 6 [] ++ exampleSlot2 :: List.replicate 17 [], [(100, ())]⟩

/-! ## Output of the resolver and the dump -/

/-- One annotation line of `printOutR2GMap`, format `"%d\t%d\t%s\t%d\t%d\n"`:
marker id, gene id, gene name, distance, side. -/
structure OutLine where
  rsnum : Nat
  GENEID : Nat
  GENENAME : GoString
  DIST : Nat
  p : Nat
deriving DecidableEq, Repr

/-- The loop of the closure `printOutR2GMap`: `Pop` until it returns `nil`, one
line per candidate popped.  The first argument bounds the number of iterations;
`none` means that the bound was reached before the `break`. -/
def popLoop (rsnum p : Nat) :
    Nat → RS2GENE_DIST_INFO_LIST → Option (List OutLine × RS2GENE_DIST_INFO_LIST)
  | 0, _ => none
  | n + 1, info =>
    match info.Pop with
    | (none, info1) => some ([], info1)
    | (some i, info1) =>
      match popLoop rsnum p n info1 with
      | none => none
      | some (ls, info2) => some (⟨rsnum, i.GENEID, i.GENENAME, i.DIST, p⟩ :: ls, info2)

/-- The closure `printOutR2GMap` of `ParseRSList`: the lines printed and the set
afterwards.  One iteration more than the set has elements reaches the `break`. -/
def printOutR2GMap (rsnum : Nat) (r2gdl : RS2GENE_DIST_INFO_LIST) (p : Nat) :
    Option (List OutLine × RS2GENE_DIST_INFO_LIST) :=
  popLoop rsnum p (r2gdl.DISTINFO.length + 1) r2gdl

/-- One line of `PrintDB`, format `"%2d%16s%12d%18s%10d%10d%3s%16s\n"`: the
eight values printed, in the order of the columns. -/
structure DumpLine where
  chr : Nat
  contig : GoString
  geneid : Nat
  GENENAME : GoString
  col5 : Nat
  col6 : Nat
  sign : GoString
  MAP : GoString
deriving DecidableEq, Repr

/-- The two inner loops of `PrintDB` for the contig `contig` of slot `i`: the
lines of the genes of `PLUS`, then those of the genes of `MINUS`. -/
def PrintDB_contig (i : Nat) (contig : GoString) (orient : ORIENT) : List DumpLine :=
  orient.PLUS.map
      (fun e => ⟨i + 1, contig, e.1, e.2.GENENAME, e.2.P5, e.2.P3, ['+'], e.2.MAP⟩) ++
    orient.MINUS.map
      (fun e => ⟨i + 1, contig, e.1, e.2.GENENAME, e.2.P3, e.2.P5, ['-'], e.2.MAP⟩)

/-- The loop of `PrintDB` over the contigs of slot `i`. -/
def PrintDB_slot (i : Nat) : CONTIG → List DumpLine
  | [] => []
  | (contig, orient) :: rest => PrintDB_contig i contig orient ++ PrintDB_slot i rest

/-- The outer loop of `PrintDB` over the slots, from slot `i` on. -/
def PrintDB_from : Nat → List CONTIG → List DumpLine
  | _, [] => []
  | i, contigs :: rest => PrintDB_slot i contigs ++ PrintDB_from (i + 1) rest

/-- The method `PrintDB`: the lines of the dump, the maps iterated in the order
of the association lists. -/
def PrintDB (db : SEQGENEDB) : List DumpLine :=
  PrintDB_from 0 db

/-! ## The resolver (`ParseRSList`) -/

/-- The state of the loop of `ParseRSList`: the index, the two reused candidate
sets, the list `lostnfound` and the annotation lines printed so far. -/
structure RSState where
  db : SEQGENEDB
  rs2genP5DistList : RS2GENE_DIST_INFO_LIST
  rs2genP3DistList : RS2GENE_DIST_INFO_LIST
  lostnfound : List Nat
  out : List OutLine
deriving DecidableEq, Repr

/-- The state at the start of the loop of `ParseRSList` on the index `db`. -/
def initRS (db : SEQGENEDB) : RSState :=
  ⟨db, emptySet, emptySet, [], []⟩

/-- The `switch` on `fields[1]` of `ParseRSList` (lines 381-390): exactly `x`
or `X` becomes `23`, exactly `y` or `Y` becomes `24`, any other field stays. -/
def markerChr (f1 : GoString) : GoString :=
  if f1 = ['x'] ∨ f1 = ['X'] then ['2', '3']
  else if f1 = ['y'] ∨ f1 = ['Y'] then ['2', '4']
  else f1

/-- One iteration of the loop of `ParseRSList` (lines 380-432) on one line of
the marker list.  The library function `TrimNewLine` and the set `exclSNP` that
`parseExcluRSList` returns are parameters.  `some st` unchanged is `continue`;
`none` is a panic or the fatal exit of `MustParseUint`.  The chromosome number
is parsed from the whole field `fields[1]`. -/
def ParseRSList_step (TrimNewLine : GoString → GoString) (Dist : Int)
    (exclSNP : List (Nat × Unit)) (st : RSState) (line : GoString) : Option RSState :=
  let fields := splitTab (TrimNewLine line)
  match fields[1]? with
  | none => none
  | some f1 =>
    if !chrNumPattern_MatchString (markerChr f1) then some st
    else
      match (fields[0]?).bind MustParseUint with
      | none => none
      | some rsnum =>
        if (mapGet exclSNP rsnum).isSome then some st
        else
          match MustParseUint (markerChr f1), fields[2]?,
            (fields[3]?).bind MustParseUint with
          | some n, some contig, some pos =>
            match st.db[(n + 4294967295) % 4294967296]? with
            | none => none
            | some ctgs =>
              match mapGet ctgs contig with
              | none =>
                some { st with
                  rs2genP5DistList := st.rs2genP5DistList.RemoveAll
                  rs2genP3DistList := st.rs2genP3DistList.RemoveAll
                  lostnfound := st.lostnfound ++ [rsnum] }
              | some o =>
                match resolveContig Dist o pos with
                | none => none
                | some (l5, l3) =>
                  match printOutR2GMap rsnum l5 5, printOutR2GMap rsnum l3 3 with
                  | some (out5, l5e), some (out3, l3e) =>
                    some { st with
                      rs2genP5DistList := l5e
                      rs2genP3DistList := l3e
                      out := st.out ++ out5 ++ out3 }
                  | _, _ => none
          | _, _, _ => none

/-- The method `ParseRSList` on the lines of the marker list; the result holds
the annotation lines and the list that `printLostAndFound` reports. -/
def ParseRSList (TrimNewLine : GoString → GoString) (Dist : Int)
    (exclSNP : List (Nat × Unit)) : RSState → List GoString → Option RSState
  | st, [] => some st
  | st, line :: rest =>
    match ParseRSList_step TrimNewLine Dist exclSNP st line with
    | none => none
    | some st1 => ParseRSList TrimNewLine Dist exclSNP st1 rest

/-- A stand-in for the library function `TrimNewLine` in the examples: the
line without its trailing `\n` and `\r` bytes. -/
def trimNewLine (line : GoString) : GoString :=
  (line.reverse.dropWhile (fun c => decide (c = '\n') || decide (c = '\r'))).reverse

/-! ## Further example lines -/

/-- A line of the primary assembly whose chromosome field is `99`; the field
matches `chrNumPattern`. -/
def exampleChr99 : GoString :=
  mkLine ["9606", "99", "100", "200", "+", "NT_1", "1000", "2000", "+", "GENEZ",
    "GeneID:300", "GENE", "GRCh37.p10-Primary Assembly", "-", "best"]

/-- A line of the primary assembly whose chromosome field is `7|NT_x`, a
chromosome number with a suffix. -/
def exampleChrSuffix : GoString :=
  mkLine ["9606", "7|NT_x", "100", "200", "+", "NT_1", "1000", "2000", "+", "GENEA",
    "GeneID:100", "GENE", "GRCh37.p10-Primary Assembly", "-", "best"]

/-- A line of the alternate assembly of chromosome 7 for gene 100, whose
orientation field is `?`. -/
def exampleBadOrient : GoString :=
  mkLine ["9606", "7", "150", "250", "?", "NT_1", "1500", "2500", "?", "GENEA",
    "GeneID:100", "GENE", "CRA_TCAGchr7v2", "-", "best"]

/-- A line of the primary assembly for gene 100 on chromosome 7, whose
orientation field is `?`. -/
def examplePrimaryBadOrient : GoString :=
  mkLine ["9606", "7", "100", "200", "?", "NT_1", "1000", "2000", "?", "GENEA",
    "GeneID:100", "GENE", "GRCh37.p10-Primary Assembly", "-", "best"]

/-- A second line of the primary assembly for gene 100 on contig `NT_1`, plus
strand, with another name, `GENEA2`, and the coordinates 1100 and 2100. -/
def examplePrimaryAgain : GoString :=
  mkLine ["9606", "7", "110", "210", "+", "NT_1", "1100", "2100", "+", "GENEA2",
    "GeneID:100", "GENE", "GRCh37.p10-Primary Assembly", "-", "best"]

/-- The state after pass 1 over `examplePrimary` and `examplePrimaryAgain`. -/
def exampleStateAgain : DBState :=
  ⟨List.replicate 6 [] ++
      [("NT_1".toList, ⟨[(100, ⟨"GENEA".toList, 1100, 2100, GRCh⟩)], []⟩)] ::
        List.replicate 17 [],
    [(100, ())]⟩

/-- A database file of four lines: gene 100 twice in the primary assembly, with
different coordinates, once in the alternate assembly, and gene 200 in the
alternate assembly only. -/
def exampleRecsAgain : List GoString :=
  [examplePrimary, examplePrimaryAgain, exampleAlternate, exampleAlternateOnly]

/-- The state after pass 1 and pass 2 over `exampleRecsAgain`. -/
def exampleStateAgain2 : DBState :=
  ⟨List.replicate 6 [] ++
      [("NT_1".toList, ⟨[(100, ⟨"GENEA".toList, 1100, 2100, GRCh⟩)], []⟩),
        ("NT_2".toList, ⟨[], [(200, ⟨"GENEB".toList, 4000, 3000, CHR7⟩)]⟩)] ::
        List.replicate 17 [],
    [(100, ())]⟩

/-- A line of the marker list: marker 1 on chromosome `7|NT_x`, contig `NT_1`,
position 500. -/
def exampleMarkerSuffix : GoString :=
  mkLine ["1", "7|NT_x", "NT_1", "500"]

/-- A line of the marker list: marker 2 on chromosome `99`. -/
def exampleMarker99 : GoString :=
  mkLine ["2", "99", "NT_1", "500"]

/-- A line of the marker list, with its line break: marker 5 on chromosome 7,
contig `NT_9` (a contig that `exampleState2` does not have), position 500. -/
def exampleMarkerLost : GoString :=
  mkLine ["5", "7", "NT_9", "500\n"]

/-! ## First and last record of an entry in pass 1 -/

/-- The record `p` addresses the entry `(slot, contig, strand, gid)`. -/
def DBFields.hitsEntry (p : DBFields) (slot : Nat) (contig : GoString) (plus : Bool)
    (gid : Nat) : Bool :=
  decide (p.chrnum = slot) && p.hitsKey contig plus gid

/-- The first record among those that pass 1 accepts from the lines `recs`, in
file order, that addresses the entry `(slot, contig, strand, gid)`. -/
def firstAccepted1 (chrDist : Bool) (recs : List GoString) (slot : Nat) (contig : GoString)
    (plus : Bool) (gid : Nat) : Option DBFields :=
  (recs.filterMap (accepted1 chrDist)).find? (fun p => p.hitsEntry slot contig plus gid)

/-- The last record among those that pass 1 accepts from the lines `recs`, in
file order, that addresses the entry `(slot, contig, strand, gid)`. -/
def lastAccepted1 (chrDist : Bool) (recs : List GoString) (slot : Nat) (contig : GoString)
    (plus : Bool) (gid : Nat) : Option DBFields :=
  (recs.filterMap (accepted1 chrDist)).reverse.find?
    (fun p => p.hitsEntry slot contig plus gid)

/-- The contents of the index during pass 1 started on the empty index, after
the lines `pre`: an entry exists exactly when an accepted record of `pre`
addresses it, and then has the name of the first such record, the tag `GRCh`
and the coordinates of the last one; every accepted record of `pre` has the
orientation `"+"` or `"-"` and a slot below 24. -/
structure PrimaryExact (chrDist : Bool) (pre : List GoString) (st : DBState) : Prop where
  len : st.db.length = 24
  look : ∀ (slot : Nat) (c : GoString) (pl : Bool) (gd : Nat),
    lookupGene st.db slot c pl gd =
      match firstAccepted1 chrDist pre slot c pl gd, lastAccepted1 chrDist pre slot c pl gd with
      | some pf, some pl1 => some (entryOf pf.gname GRCh pl1)
      | _, _ => none
  valid : ∀ line ∈ pre, ∀ p : DBFields, accepted1 chrDist line = some p →
    p.chrnum < 24 ∧ ∃ plus : Bool, p.orient = strandSign plus

/-! ## Keys of the index, for the second ingestion -/

/-- The keys of a Go map, in the order of the association list. -/
def keysOf {K V : Type} (m : List (K × V)) : List K :=
  m.map Prod.fst

/-- The gene ids of the two maps of an `ORIENT`. -/
def orientShape (o : ORIENT) : List Nat × List Nat :=
  (keysOf o.PLUS, keysOf o.MINUS)

/-- The contigs of a slot, each with the gene ids of its two maps. -/
def contigShape (ctgs : CONTIG) : List (GoString × (List Nat × List Nat)) :=
  ctgs.map (fun e => (e.1, orientShape e.2))

/-- The keys of the whole index: slot by slot, the contigs and their gene ids. -/
def dbShape (db : SEQGENEDB) : List (List (GoString × (List Nat × List Nat))) :=
  db.map contigShape

/-- No map of the index has a key twice, as in a Go map. -/
def WellKeyed (db : SEQGENEDB) : Prop :=
  ∀ ctgs ∈ db, (keysOf ctgs).Nodup ∧
    ∀ e ∈ ctgs, (keysOf e.2.PLUS).Nodup ∧ (keysOf e.2.MINUS).Nodup

/-- The invariant of a second pass 1 over the lines `recs`, started in the
state `st2` that the first ingestion left, after the lines `pre`: the set
`chr7genes` and the keys of the index are those of `st2`, and every entry is
the one of `st2` with the coordinates of the last accepted record of `pre`
that addresses it, if there is one. -/
structure RerunInv (chrDist : Bool) (st2 : DBState) (pre : List GoString) (t : DBState) :
    Prop where
  seen : t.chr7genes = st2.chr7genes
  shape : dbShape t.db = dbShape st2.db
  look : ∀ (slot : Nat) (c : GoString) (pl : Bool) (gd : Nat),
    lookupGene t.db slot c pl gd =
      (lookupGene st2.db slot c pl gd).map (fun g2 =>
        match lastAccepted1 chrDist pre slot c pl gd with
        | some q => entryOf g2.GENENAME g2.MAP q
        | none => g2)

/-- A line of the marker list: marker 1 on chromosome `7|NT_x`, contig `NT_9`
(a contig that `exampleState2` does not have), position 500. -/
def exampleMarkerLostSuffix : GoString :=
  mkLine ["1", "7|NT_x", "NT_9", "500"]

/-- A line of the marker list: marker 2 on chromosome `99`, contig `NT_9`,
position 500. -/
def exampleMarkerLost99 : GoString :=
  mkLine ["2", "99", "NT_9", "500"]

/-- A line of the marker list: marker 6 on chromosome `X`, contig `NT_9`,
position 500. -/
def exampleMarkerLostX : GoString :=
  mkLine ["6", "X", "NT_9", "500"]

/-! ## Theorems -/

theorem removeAll_eq (info : RS2GENE_DIST_INFO_LIST) : info.RemoveAll = emptySet := by
  simp [RemoveAll, emptySet]

theorem push_of_threshold (T : Int) (hT : 0 ≤ T) (info : RS2GENE_DIST_INFO_LIST)
    (r : GENE_DIST_INFO) :
    info.Push T r =
      some (if (r.DIST : Int) ≤ T then ⟨info.DISTINFO ++ [r]⟩ else info) := by
  unfold Push
  have h1 : ¬ T < 0 := not_lt.mpr hT
  simp only [h1, if_false]
  by_cases h : (r.DIST : Int) ≤ T
  · have h2 : ¬ (r.DIST : Int) > T := not_lt.mpr h
    simp [h, h2, APPEND]
  · have h2 : (r.DIST : Int) > T := not_le.mp h
    simp [h, h2]

theorem pushAll_append_filter (T : Int) (hT : 0 ≤ T) (cs : List GENE_DIST_INFO) :
    ∀ info : RS2GENE_DIST_INFO_LIST,
      pushAll T info cs =
        some ⟨info.DISTINFO ++ cs.filter (fun c => decide ((c.DIST : Int) ≤ T))⟩ := by
  induction cs with
  | nil => intro info; simp [pushAll]
  | cons c cs ih =>
    intro info
    rw [pushAll, push_of_threshold T hT]
    simp only []
    rw [ih]
    by_cases h : (c.DIST : Int) ≤ T
    · simp [h, List.filter_cons]
    · simp [h, List.filter_cons]

theorem removeAll_emptySet : emptySet.RemoveAll = emptySet := rfl

theorem push_minimum_empty (Dist : Int) (hD : Dist < 0) (c : GENE_DIST_INFO) :
    emptySet.Push Dist c = none := by
  simp [Push, emptySet, hD]

theorem pushAll_minimum_empty (Dist : Int) (hD : Dist < 0) (c : GENE_DIST_INFO)
    (cs : List GENE_DIST_INFO) : pushAll Dist emptySet (c :: cs) = none := by
  simp [pushAll, push_minimum_empty Dist hD]

/-- C1: in minimum mode (`Dist = -1`) pushing the two candidates
`(100, "A", 500)` and `(200, "B", 300)` one after another onto the empty set does
not produce the set of the candidates of minimum distance: the first `Push`
panics on `info.DISTINFO[0]`, so the run has no resulting set. -/
theorem pushAll_minimum_from_empty_panics :
    pushAll (-1) emptySet.RemoveAll [⟨100, ['A'], 500⟩, ⟨200, ['B'], 300⟩] = none := by
  decide

theorem resolveContig_minimum_panics :
    resolveContig (-1) ⟨[(100, ⟨['G', 'E', 'N', 'E', 'A'], 1000, 2000, GRCh⟩)], []⟩ 500 = none := by
  decide

/-- C2: in minimum mode (`Dist = -1`) `Push` of the candidate `(100, "A", 500)`
onto the empty set does not append it: the case `len(info.DISTINFO) < 0` is
never taken and the next case panics on `info.DISTINFO[0]`. -/
theorem push_minimum_onto_empty_panics :
    emptySet.Push (-1) ⟨100, ['A'], 500⟩ = none ∧
      emptySet.Push (-1) ⟨100, ['A'], 500⟩ ≠ some ⟨[⟨100, ['A'], 500⟩]⟩ := by
  decide

theorem push_minimum_cases (Dist : Int) (hD : Dist < 0) (e : GENE_DIST_INFO)
    (rest : List GENE_DIST_INFO) (c : GENE_DIST_INFO) :
    (c.DIST < e.DIST → Push Dist ⟨e :: rest⟩ c = some ⟨[c]⟩) ∧
      (c.DIST = e.DIST → Push Dist ⟨e :: rest⟩ c = some ⟨(e :: rest) ++ [c]⟩) ∧
      (c.DIST > e.DIST → Push Dist ⟨e :: rest⟩ c = some ⟨e :: rest⟩) := by
  have hlen : ¬ (((e :: rest).length : Nat) : Int) < 0 := by omega
  refine ⟨fun h => ?_, fun h => ?_, fun h => ?_⟩
  · simp only [Push, hD, hlen, if_true, if_false]
    simp [h, RemoveAll, APPEND]
  · simp only [Push, hD, hlen, if_true, if_false]
    simp [h, APPEND]
  · have h1 : ¬ e.DIST > c.DIST := by omega
    have h2 : ¬ e.DIST = c.DIST := by omega
    simp only [Push, hD, hlen, if_true, if_false]
    simp [h1, h2]

/-- C3: in minimum mode (`Dist < 0`), on a non-empty set `e :: rest` whose first
element has distance `e.DIST`, `Push c` leaves exactly `[c]` when
`c.DIST < e.DIST`, the set with `c` appended at the end when `c.DIST = e.DIST`,
and the set unchanged when `c.DIST > e.DIST`. -/
theorem push_minimum_nonempty (Dist : Int) (hD : Dist < 0) (e : GENE_DIST_INFO)
    (rest : List GENE_DIST_INFO) (c : GENE_DIST_INFO) :
    (c.DIST < e.DIST → Push Dist ⟨e :: rest⟩ c = some ⟨[c]⟩) ∧
      (c.DIST = e.DIST → Push Dist ⟨e :: rest⟩ c = some ⟨(e :: rest) ++ [c]⟩) ∧
      (c.DIST > e.DIST → Push Dist ⟨e :: rest⟩ c = some ⟨e :: rest⟩) := by
  have hlen : ¬ (((e :: rest).length : Nat) : Int) < 0 := by omega
  refine ⟨fun h => ?_, fun h => ?_, fun h => ?_⟩
  · simp only [Push, hD, hlen, if_true, if_false]
    simp [h, RemoveAll, APPEND]
  · simp only [Push, hD, hlen, if_true, if_false]
    simp [h, APPEND]
  · have h1 : ¬ e.DIST > c.DIST := by omega
    have h2 : ¬ e.DIST = c.DIST := by omega
    simp only [Push, hD, hlen, if_true, if_false]
    simp [h1, h2]

/-- Witness of C3 at `Dist = -1`, the set `[(1, "A", 50), (2, "B", 50)]` and
candidates of distance 40, 50 and 60. -/
theorem push_minimum_nonempty_witness :
    ((-1 : Int) < 0) ∧
      Push (-1) ⟨[⟨1, ['A'], 50⟩, ⟨2, ['B'], 50⟩]⟩ ⟨3, ['C'], 40⟩ = some ⟨[⟨3, ['C'], 40⟩]⟩ ∧
      Push (-1) ⟨[⟨1, ['A'], 50⟩, ⟨2, ['B'], 50⟩]⟩ ⟨3, ['C'], 50⟩ =
        some ⟨[⟨1, ['A'], 50⟩, ⟨2, ['B'], 50⟩, ⟨3, ['C'], 50⟩]⟩ ∧
      Push (-1) ⟨[⟨1, ['A'], 50⟩, ⟨2, ['B'], 50⟩]⟩ ⟨3, ['C'], 60⟩ =
        some ⟨[⟨1, ['A'], 50⟩, ⟨2, ['B'], 50⟩]⟩ :=
  ⟨by decide,
    (push_minimum_nonempty (-1) (by decide) ⟨1, ['A'], 50⟩ [⟨2, ['B'], 50⟩] ⟨3, ['C'], 40⟩).1
      (by decide),
    (push_minimum_nonempty (-1) (by decide) ⟨1, ['A'], 50⟩ [⟨2, ['B'], 50⟩] ⟨3, ['C'], 50⟩).2.1
      (by decide),
    (push_minimum_nonempty (-1) (by decide) ⟨1, ['A'], 50⟩ [⟨2, ['B'], 50⟩] ⟨3, ['C'], 60⟩).2.2
      (by decide)⟩

/-- C4: in threshold mode (`Dist = T ≥ 0`) pushing the candidates of a list one
after another onto the empty set succeeds and leaves exactly the sublist of the
candidates whose distance is at most `T`, in push order; so a candidate is in
the result iff it was pushed and its own distance is at most `T`. -/
theorem pushAll_threshold_mode (T : Int) (hT : 0 ≤ T) (cs : List GENE_DIST_INFO) :
    pushAll T emptySet.RemoveAll cs =
        some ⟨cs.filter (fun c => decide ((c.DIST : Int) ≤ T))⟩ ∧
      ∀ c : GENE_DIST_INFO,
        c ∈ cs.filter (fun c => decide ((c.DIST : Int) ≤ T)) ↔ c ∈ cs ∧ (c.DIST : Int) ≤ T := by
  constructor
  · rw [pushAll_append_filter T hT]
    simp [emptySet, RemoveAll]
  · intro c
    simp [List.mem_filter]

/-- Witness of C4 at `T = 1000` and three candidates of distance 500, 1500
and 1000. -/
theorem pushAll_threshold_mode_witness :
    ((0 : Int) ≤ 1000) ∧
      pushAll 1000 emptySet.RemoveAll [⟨1, ['A'], 500⟩, ⟨2, ['B'], 1500⟩, ⟨3, ['C'], 1000⟩] =
        some ⟨[⟨1, ['A'], 500⟩, ⟨3, ['C'], 1000⟩]⟩ :=
  ⟨by decide,
    (pushAll_threshold_mode 1000 (by decide)
      [⟨1, ['A'], 500⟩, ⟨2, ['B'], 1500⟩, ⟨3, ['C'], 1000⟩]).1.trans (by decide)⟩

/-! ### Distances -/

theorem plusDist_inside (g : GENEINFO) (pos : Nat) (h3 : g.P3 + 500 < 4294967296)
    (hlo : g.P5 - 2000 < pos) (hhi : pos < g.P3 + 500) : plusDist g pos = (0, 0) := by
  have hb : isBetweenRange (reachBottom g.P5 2000) (add32 g.P3 500) pos = true := by
    simp only [isBetweenRange, reachBottom, add32, Nat.mod_eq_of_lt h3]
    split_ifs <;> simp_all <;> omega
  simp [plusDist, hb]

theorem minusDist_inside (g : GENEINFO) (pos : Nat) (h5 : g.P5 + 2000 < 4294967296)
    (hlo : g.P3 - 500 < pos) (hhi : pos < g.P5 + 2000) : minusDist g pos = (0, 0) := by
  have hb : isBetweenRange (reachBottom g.P3 500) (add32 g.P5 2000) pos = true := by
    simp only [isBetweenRange, reachBottom, add32, Nat.mod_eq_of_lt h5]
    split_ifs <;> simp_all <;> omega
  simp [minusDist, hb]

theorem plusDist_gene_body_example :
    plusDist ⟨['G', 'E', 'N', 'E', 'A'], 1000, 2000, GRCh⟩ 1500 = (0, 0) := by
  decide

/-- C5: for the plus-strand gene with `P5 = 4294967000`, `P3 = 4294967295` and
the marker position `4294967100`, which lies strictly inside the window
`[max(P5-2000, 0), P3+500]` of the mathematical integers, the resolver computes
the distances 100 and 195, not 0 and 0: `ginfo.P3+500` wraps around to 499.  The
same happens on the minus strand with `P3 = 4294967000`, `P5 = 4294967295`,
where `ginfo.P5+2000` wraps around to 1999. -/
theorem dist_inside_window_wraps :
    (max ((4294967000 : Int) - 2000) 0 < 4294967100 ∧
        (4294967100 : Int) < 4294967295 + 500 ∧
        add32 4294967295 500 = 499 ∧
        plusDist ⟨['A'], 4294967000, 4294967295, GRCh⟩ 4294967100 = (100, 195)) ∧
      (max ((4294967000 : Int) - 500) 0 < 4294967100 ∧
        (4294967100 : Int) < 4294967295 + 2000 ∧
        add32 4294967295 2000 = 1999 ∧
        minusDist ⟨['A'], 4294967295, 4294967000, GRCh⟩ 4294967100 = (195, 100)) := by
  decide

/-- C6 as stated fails: for the plus-strand gene with `P5 = 10000`, `P3 = 1000`
(not numerically ordered) the position 5000 is outside
`[max(P5-2000, 0), P3+500] = [8000, 1500]`, yet the distances are not
`|5000 - 10000|` and `|5000 - 1000|`: `isBetweenRange` swaps its bounds and both
distances are 0. -/
theorem dist_outside_window_unordered :
    ¬ (((5000 : Int) < max (10000 - 2000) 0 ∨ (1000 : Int) + 500 < 5000) →
        plusDist ⟨['A'], 10000, 1000, GRCh⟩ 5000 =
          (Int.natAbs ((5000 : Int) - 10000), Int.natAbs ((5000 : Int) - 1000))) := by
  decide

/-- C6, amended: for a plus-strand gene whose `P3 + 500` is below `2 ^ 32`, the
two bounds `max(P5-2000, 0)` (here the truncated `P5 - 2000`) and `P3 + 500`
are taken in either order, `isBetweenRange` swapping them when the first
exceeds the second.  For a marker position `pos` outside the closed interval
that they span, the 5' distance is `|pos - P5|` and the 3' distance
`|pos - P3|`; for `pos` inside that closed interval, in particular between the
swapped bounds of a gene whose coordinates are not numerically ordered, both
distances are 0.  Likewise for a minus-strand gene whose `P5 + 2000` is below
`2 ^ 32`, with the bounds `max(P3-500, 0)` and `P5 + 2000`. -/
theorem dist_outside_window (g : GENEINFO) (pos : Nat) :
    (g.P3 + 500 < 4294967296 →
        (pos < min (g.P5 - 2000) (g.P3 + 500) ∨ max (g.P5 - 2000) (g.P3 + 500) < pos) →
        plusDist g pos =
          (Int.natAbs ((pos : Int) - g.P5), Int.natAbs ((pos : Int) - g.P3))) ∧
      (g.P3 + 500 < 4294967296 →
        min (g.P5 - 2000) (g.P3 + 500) ≤ pos → pos ≤ max (g.P5 - 2000) (g.P3 + 500) →
        plusDist g pos = (0, 0)) ∧
      (g.P5 + 2000 < 4294967296 →
        (pos < min (g.P3 - 500) (g.P5 + 2000) ∨ max (g.P3 - 500) (g.P5 + 2000) < pos) →
        minusDist g pos =
          (Int.natAbs ((pos : Int) - g.P5), Int.natAbs ((pos : Int) - g.P3))) ∧
      (g.P5 + 2000 < 4294967296 →
        min (g.P3 - 500) (g.P5 + 2000) ≤ pos → pos ≤ max (g.P3 - 500) (g.P5 + 2000) →
        minusDist g pos = (0, 0)) := by
  have habs : ∀ a b : Nat, simpleSubstractAbs a b = Int.natAbs ((b : Int) - a) := by
    intro a b
    unfold simpleSubstractAbs
    split_ifs <;> omega
  refine ⟨?_, ?_, ?_, ?_⟩
  · intro h3 hout
    have hb : isBetweenRange (reachBottom g.P5 2000) (add32 g.P3 500) pos = false := by
      simp only [isBetweenRange, reachBottom, add32, Nat.mod_eq_of_lt h3]
      split_ifs <;> simp_all <;> omega
    simp [plusDist, hb, habs]
  · intro h3 hlo hhi
    have hb : isBetweenRange (reachBottom g.P5 2000) (add32 g.P3 500) pos = true := by
      simp only [isBetweenRange, reachBottom, add32, Nat.mod_eq_of_lt h3]
      split_ifs <;> simp_all <;> omega
    simp [plusDist, hb]
  · intro h5 hout
    have hb : isBetweenRange (reachBottom g.P3 500) (add32 g.P5 2000) pos = false := by
      simp only [isBetweenRange, reachBottom, add32, Nat.mod_eq_of_lt h5]
      split_ifs <;> simp_all <;> omega
    simp [minusDist, hb, habs]
  · intro h5 hlo hhi
    have hb : isBetweenRange (reachBottom g.P3 500) (add32 g.P5 2000) pos = true := by
      simp only [isBetweenRange, reachBottom, add32, Nat.mod_eq_of_lt h5]
      split_ifs <;> simp_all <;> omega
    simp [minusDist, hb]

/-- Witness of the amended C6 on genes whose coordinates are not numerically
ordered.  Plus strand, `P5 = 10000`, `P3 = 1000`, bounds 8000 and 1500: the
positions 1000 (below both) and 9000 (above both) get the absolute differences,
the position 5000 between the swapped bounds gets 0 and 0.  Minus strand,
`P5 = 1000`, `P3 = 10000`, bounds 9500 and 3000: the position 9800 gets the
absolute differences, the position 5000 gets 0 and 0. -/
theorem dist_outside_window_witness :
    (1000 + 500 < 4294967296 ∧ 1000 < min (10000 - 2000) (1000 + 500) ∧
        max (10000 - 2000) (1000 + 500) < 9000 ∧
        min (10000 - 2000) (1000 + 500) ≤ 5000 ∧ 5000 ≤ max (10000 - 2000) (1000 + 500) ∧
        plusDist ⟨['A'], 10000, 1000, GRCh⟩ 1000 = (9000, 0) ∧
        plusDist ⟨['A'], 10000, 1000, GRCh⟩ 9000 = (1000, 8000) ∧
        plusDist ⟨['A'], 10000, 1000, GRCh⟩ 5000 = (0, 0)) ∧
      (1000 + 2000 < 4294967296 ∧ max (10000 - 500) (1000 + 2000) < 9800 ∧
        min (10000 - 500) (1000 + 2000) ≤ 5000 ∧ 5000 ≤ max (10000 - 500) (1000 + 2000) ∧
        minusDist ⟨['A'], 1000, 10000, GRCh⟩ 9800 = (8800, 200) ∧
        minusDist ⟨['A'], 1000, 10000, GRCh⟩ 5000 = (0, 0)) :=
  ⟨⟨by decide, by decide, by decide, by decide, by decide,
      (dist_outside_window ⟨['A'], 10000, 1000, GRCh⟩ 1000).1 (by decide)
        (Or.inl (by decide)),
      (dist_outside_window ⟨['A'], 10000, 1000, GRCh⟩ 9000).1 (by decide)
        (Or.inr (by decide)),
      (dist_outside_window ⟨['A'], 10000, 1000, GRCh⟩ 5000).2.1 (by decide) (by decide)
        (by decide)⟩,
    ⟨by decide, by decide, by decide, by decide,
      (dist_outside_window ⟨['A'], 1000, 10000, GRCh⟩ 9800).2.2.1 (by decide)
        (Or.inr (by decide)),
      (dist_outside_window ⟨['A'], 1000, 10000, GRCh⟩ 5000).2.2.2 (by decide) (by decide)
        (by decide)⟩⟩

/-- C7 as stated fails: for the plus-strand gene 100 (`GENEA`) with `P5 = 1000`,
`P3 = 2000` and the marker at position 500 the candidates pushed are not
`(100, GENEA, 500)` and `(100, GENEA, 1500)`. -/
theorem geneA_candidates_not_500_1500 :
    plusCandidates 100 ⟨['G', 'E', 'N', 'E', 'A'], 1000, 2000, GRCh⟩ 500 ≠
      (⟨100, ['G', 'E', 'N', 'E', 'A'], 500⟩, ⟨100, ['G', 'E', 'N', 'E', 'A'], 1500⟩) := by
  decide

/-- C7, amended: for the plus-strand gene 100 (`GENEA`) with `P5 = 1000`,
`P3 = 2000` and the marker at position 500 the lower bound `P5 - 2000` is floored
at 0, the overlap test on the window `[0, 2500]` succeeds, and the candidates
pushed are `(100, GENEA, 0)` on the 5' side and `(100, GENEA, 0)` on the 3'
side. -/
theorem geneA_candidates_zero :
    reachBottom 1000 2000 = 0 ∧ add32 2000 500 = 2500 ∧
      isBetweenRange (reachBottom 1000 2000) (add32 2000 500) 500 = true ∧
      plusCandidates 100 ⟨['G', 'E', 'N', 'E', 'A'], 1000, 2000, GRCh⟩ 500 =
        (⟨100, ['G', 'E', 'N', 'E', 'A'], 0⟩, ⟨100, ['G', 'E', 'N', 'E', 'A'], 0⟩) := by
  decide

/-! ### Maps -/

theorem mapGet_mapSet {K V : Type} [DecidableEq K] (m : List (K × V)) (k k1 : K) (v : V) :
    mapGet (mapSet m k v) k1 = if k = k1 then some v else mapGet m k1 := by
  induction m with
  | nil => simp [mapSet, mapGet]
  | cons e rest ih =>
    obtain ⟨a, b⟩ := e
    by_cases h : a = k
    · subst h
      by_cases h1 : a = k1 <;> simp [mapSet, mapGet, h1]
    · by_cases h1 : a = k1
      · subst h1
        have h2 : ¬ k = a := fun e => h e.symm
        simp [mapSet, mapGet, h, h2]
      · simp [mapSet, mapGet, h, h1, ih]

theorem lookupGene_getD (db : SEQGENEDB) (chrnum : Nat) (ctgs : CONTIG) (contig : GoString)
    (hc : db[chrnum]? = some ctgs) (pl : Bool) (gd : Nat) :
    mapGet (if pl then ((mapGet ctgs contig).getD ⟨[], []⟩).PLUS
        else ((mapGet ctgs contig).getD ⟨[], []⟩).MINUS) gd =
      lookupGene db chrnum contig pl gd := by
  unfold lookupGene
  rw [hc]
  cases h : mapGet ctgs contig with
  | none => cases pl <;> simp [h, mapGet]
  | some o => simp [h]

theorem lookupGene_putGene (db : SEQGENEDB) (chrnum : Nat) (ctgs : CONTIG) (contig : GoString)
    (plus : Bool) (gid : Nat) (g : GENEINFO) (hc : db[chrnum]? = some ctgs)
    (slot : Nat) (c : GoString) (pl : Bool) (gd : Nat) :
    lookupGene (putGene db chrnum ctgs contig ((mapGet ctgs contig).getD ⟨[], []⟩) plus gid g)
        slot c pl gd =
      if slot = chrnum ∧ c = contig ∧ pl = plus ∧ gd = gid then some g
      else lookupGene db slot c pl gd := by
  have hlt : chrnum < db.length := by
    rcases Nat.lt_or_ge chrnum db.length with h | h
    · exact h
    · rw [List.getElem?_eq_none h] at hc; cases hc
  by_cases hs : slot = chrnum
  · subst hs
    by_cases hcc : c = contig
    · subst hcc
      have hget := lookupGene_getD db slot ctgs c hc pl gd
      unfold lookupGene putGene
      rw [List.getElem?_set_self hlt]
      simp only [mapGet_mapSet, if_true, true_and]
      rw [← lookupGene, ← hget]
      cases pl <;> cases plus <;> simp [mapGet_mapSet] <;>
        (by_cases hg : gid = gd <;> simp [hg, eq_comm])
    · have hcc2 : ¬ contig = c := fun e => hcc e.symm
      unfold lookupGene putGene
      rw [List.getElem?_set_self hlt, hc]
      simp [mapGet_mapSet, hcc, hcc2]
  · have hs2 : chrnum ≠ slot := fun e => hs e.symm
    unfold lookupGene putGene
    rw [List.getElem?_set_ne hs2]
    simp [hs]

theorem lookupGene_touch (db : SEQGENEDB) (chrnum : Nat) (ctgs : CONTIG) (contig : GoString)
    (hc : db[chrnum]? = some ctgs) (plus : Bool) (gid : Nat) (g : GENEINFO)
    (hg : lookupGene db chrnum contig plus gid = some g)
    (slot : Nat) (c : GoString) (pl : Bool) (gd : Nat) :
    lookupGene (db.set chrnum (mapSet ctgs contig ((mapGet ctgs contig).getD ⟨[], []⟩)))
        slot c pl gd = lookupGene db slot c pl gd := by
  have hlt : chrnum < db.length := by
    rcases Nat.lt_or_ge chrnum db.length with h | h
    · exact h
    · rw [List.getElem?_eq_none h] at hc; cases hc
  by_cases hs : slot = chrnum
  · subst hs
    unfold lookupGene
    rw [List.getElem?_set_self hlt, hc]
    simp only [mapGet_mapSet]
    by_cases hcc : contig = c
    · subst hcc
      unfold lookupGene at hg
      rw [hc] at hg
      cases h : mapGet ctgs contig with
      | none => simp [h] at hg
      | some o => simp [h]
    · simp [hcc]
  · have hs2 : chrnum ≠ slot := fun e => hs e.symm
    unfold lookupGene
    rw [List.getElem?_set_ne hs2]

/-! ### The two passes, one record at a time -/

theorem strandSign_injective (a b : Bool) (h : strandSign a = strandSign b) : a = b := by
  cases a <;> cases b <;> simp [strandSign] at h <;> rfl

theorem entryOf_plus (name tag : GoString) (p : DBFields) (h : p.orient = strandSign true) :
    entryOf name tag p = ⟨name, p.ctg1, p.ctg2, tag⟩ := by
  simp [entryOf, DBFields.plus, strandSign] at *
  simp [h]

theorem entryOf_minus (name tag : GoString) (p : DBFields) (h : p.orient = strandSign false) :
    entryOf name tag p = ⟨name, p.ctg2, p.ctg1, tag⟩ := by
  simp [entryOf, DBFields.plus, strandSign] at *
  simp [h]

/-- What one accepted record does to the state in pass 1. -/
theorem ReadDBFile_insert_spec (st st1 : DBState) (p : DBFields)
    (h : ReadDBFile_insert st p = some st1) :
    ∃ plus : Bool, p.orient = strandSign plus ∧ p.chrnum < st.db.length ∧
      st1.db.length = st.db.length ∧
      (∀ i : Nat, i ≠ p.chrnum → st1.db[i]? = st.db[i]?) ∧
      (∀ (slot : Nat) (c : GoString) (pl : Bool) (gd : Nat),
        lookupGene st1.db slot c pl gd =
          if slot = p.chrnum ∧ c = p.contig ∧ pl = plus ∧ gd = p.gid then
            some (match lookupGene st.db p.chrnum p.contig plus p.gid with
              | some g => entryOf g.GENENAME g.MAP p
              | none => entryOf p.gname GRCh p)
          else lookupGene st.db slot c pl gd) ∧
      st1.chr7genes =
        (if (lookupGene st.db p.chrnum p.contig plus p.gid).isNone = true ∧
            (p.chrnum + 1) % 4294967296 = 7 then mapSet st.chr7genes p.gid ()
          else st.chr7genes) := by
  unfold ReadDBFile_insert at h
  cases hc : st.db[p.chrnum]? with
  | none => simp [hc] at h
  | some ctgs =>
    have hlt : p.chrnum < st.db.length := by
      rcases Nat.lt_or_ge p.chrnum st.db.length with h0 | h0
      · exact h0
      · rw [List.getElem?_eq_none h0] at hc; cases hc
    simp only [hc] at h
    by_cases hp : p.orient = ['+']
    · have hsign : p.orient = strandSign true := by simpa [strandSign] using hp
      have hget := lookupGene_getD st.db p.chrnum ctgs p.contig hc true p.gid
      simp only [if_true] at hget
      rw [if_pos hp, hget] at h
      refine ⟨true, hsign, hlt, ?_⟩
      cases hl : lookupGene st.db p.chrnum p.contig true p.gid with
      | none =>
        simp only [hl, Option.some.injEq] at h
        subst h
        refine ⟨by simp [putGene], ?_, ?_, by simp⟩
        · intro i hi
          simp [putGene, List.getElem?_set_ne (Ne.symm hi)]
        · intro slot c pl gd
          rw [lookupGene_putGene _ _ _ _ _ _ _ hc, entryOf_plus _ _ _ hsign]
      | some g =>
        simp only [hl, Option.some.injEq] at h
        subst h
        refine ⟨by simp [putGene], ?_, ?_, by simp⟩
        · intro i hi
          simp [putGene, List.getElem?_set_ne (Ne.symm hi)]
        · intro slot c pl gd
          rw [lookupGene_putGene _ _ _ _ _ _ _ hc]
          simp only [entryOf_plus _ _ _ hsign]
    · by_cases hm : p.orient = ['-']
      · have hsign : p.orient = strandSign false := by simpa [strandSign] using hm
        have hget := lookupGene_getD st.db p.chrnum ctgs p.contig hc false p.gid
        simp only [Bool.false_eq_true, if_false] at hget
        rw [if_neg hp, if_pos hm, hget] at h
        refine ⟨false, hsign, hlt, ?_⟩
        cases hl : lookupGene st.db p.chrnum p.contig false p.gid with
        | none =>
          simp only [hl, Option.some.injEq] at h
          subst h
          refine ⟨by simp [putGene], ?_, ?_, by simp⟩
          · intro i hi
            simp [putGene, List.getElem?_set_ne (Ne.symm hi)]
          · intro slot c pl gd
            rw [lookupGene_putGene _ _ _ _ _ _ _ hc, entryOf_minus _ _ _ hsign]
        | some g =>
          simp only [hl, Option.some.injEq] at h
          subst h
          refine ⟨by simp [putGene], ?_, ?_, by simp⟩
          · intro i hi
            simp [putGene, List.getElem?_set_ne (Ne.symm hi)]
          · intro slot c pl gd
            rw [lookupGene_putGene _ _ _ _ _ _ _ hc]
            simp only [entryOf_minus _ _ _ hsign]
      · simp [hp, hm] at h

/-- What one accepted record does to the state in pass 2. -/
theorem ReadDBFileForChr7_insert_spec (st st1 : DBState) (p : DBFields)
    (h : ReadDBFileForChr7_insert st p = some st1) :
    st1.chr7genes = st.chr7genes ∧ st1.db.length = st.db.length ∧
      (∀ i : Nat, i ≠ p.chrnum → st1.db[i]? = st.db[i]?) ∧
      (((mapGet st.chr7genes p.gid).isSome = true ∧ st1 = st) ∨
        ((mapGet st.chr7genes p.gid).isSome = false ∧
          ∃ plus : Bool, p.orient = strandSign plus ∧
            ∀ (slot : Nat) (c : GoString) (pl : Bool) (gd : Nat),
              lookupGene st1.db slot c pl gd =
                if slot = p.chrnum ∧ c = p.contig ∧ pl = plus ∧ gd = p.gid then
                  some ((lookupGene st.db p.chrnum p.contig plus p.gid).getD
                    (entryOf p.gname CHR7 p))
                else lookupGene st.db slot c pl gd)) := by
  unfold ReadDBFileForChr7_insert at h
  by_cases hseen : (mapGet st.chr7genes p.gid).isSome = true
  · rw [if_pos hseen] at h
    cases h
    exact ⟨rfl, rfl, fun _ _ => rfl, Or.inl ⟨hseen, rfl⟩⟩
  · rw [if_neg hseen] at h
    have hseen2 : (mapGet st.chr7genes p.gid).isSome = false := by simpa using hseen
    cases hc : st.db[p.chrnum]? with
    | none => simp [hc] at h
    | some ctgs =>
      simp only [hc] at h
      by_cases hp : p.orient = ['+']
      · have hsign : p.orient = strandSign true := by simpa [strandSign] using hp
        have hget := lookupGene_getD st.db p.chrnum ctgs p.contig hc true p.gid
        simp only [if_true] at hget
        rw [if_pos hp, hget] at h
        cases hl : lookupGene st.db p.chrnum p.contig true p.gid with
        | none =>
          simp only [hl, Option.some.injEq] at h
          subst h
          refine ⟨rfl, by simp [putGene], ?_, Or.inr ⟨hseen2, true, hsign, ?_⟩⟩
          · intro i hi
            simp [putGene, List.getElem?_set_ne (Ne.symm hi)]
          · intro slot c pl gd
            rw [lookupGene_putGene _ _ _ _ _ _ _ hc, entryOf_plus _ _ _ hsign, hl]
            rfl
        | some g =>
          simp only [hl, Option.some.injEq] at h
          subst h
          refine ⟨rfl, by simp, ?_, Or.inr ⟨hseen2, true, hsign, ?_⟩⟩
          · intro i hi
            simp [List.getElem?_set_ne (Ne.symm hi)]
          · intro slot c pl gd
            simp only [lookupGene_touch _ _ _ _ hc true p.gid g hl]
            split_ifs with hk
            · obtain ⟨h1, h2, h3, h4⟩ := hk
              subst h1 h2 h3 h4
              simp [hl]
            · rfl
      · by_cases hm : p.orient = ['-']
        · have hsign : p.orient = strandSign false := by simpa [strandSign] using hm
          have hget := lookupGene_getD st.db p.chrnum ctgs p.contig hc false p.gid
          simp only [Bool.false_eq_true, if_false] at hget
          rw [if_neg hp, if_pos hm, hget] at h
          cases hl : lookupGene st.db p.chrnum p.contig false p.gid with
          | none =>
            simp only [hl, Option.some.injEq] at h
            subst h
            refine ⟨rfl, by simp [putGene], ?_, Or.inr ⟨hseen2, false, hsign, ?_⟩⟩
            · intro i hi
              simp [putGene, List.getElem?_set_ne (Ne.symm hi)]
            · intro slot c pl gd
              rw [lookupGene_putGene _ _ _ _ _ _ _ hc, entryOf_minus _ _ _ hsign, hl]
              rfl
          | some g =>
            simp only [hl, Option.some.injEq] at h
            subst h
            refine ⟨rfl, by simp, ?_, Or.inr ⟨hseen2, false, hsign, ?_⟩⟩
            · intro i hi
              simp [List.getElem?_set_ne (Ne.symm hi)]
            · intro slot c pl gd
              simp only [lookupGene_touch _ _ _ _ hc false p.gid g hl]
              split_ifs with hk
              · obtain ⟨h1, h2, h3, h4⟩ := hk
                subst h1 h2 h3 h4
                simp [hl]
              · rfl
        · simp [hp, hm] at h

/-- A record that pass 2 accepts lies in slot 6. -/
theorem accepted2_chrnum (chrDist : Bool) (line : GoString) (p : DBFields)
    (h : accepted2 chrDist line = some p) : p.chrnum = 6 := by
  unfold accepted2 at h
  cases hf : ReadDBFileForChr7_filter line with
  | skip => simp [hf] at h
  | fatal => simp [hf] at h
  | accept fields =>
    simp only [hf] at h
    unfold ReadDBFileForChr7_filter at hf
    split_ifs at hf with h0
    simp only at hf
    split at hf
    · cases hf
    · rename_i num hnum
      split_ifs at hf with h1 h2
      split at hf
      · cases hf
      · split_ifs at hf with h4
        · split at hf
          · cases hf
          · split_ifs at hf with h7
            injection hf with hf
            subst hf
            have h7 : parseChrNum num = some ['7'] := by simpa using h2
            unfold parseDBFieldsInfo at h
            simp only [hnum, h7] at h
            split at h
            · rename_i hn _ _ _ _
              cases h
              have : MustParseUint ['7'] = some 7 := by decide
              simp at hn
              rw [this] at hn
              cases hn
              rfl
            · cases h

/-! ### Invariants of the two passes -/

theorem lookupGene_emptyDB (slot : Nat) (c : GoString) (pl : Bool) (gd : Nat) :
    lookupGene emptyDB slot c pl gd = none := by
  unfold lookupGene emptyDB
  cases h : (List.replicate 24 ([] : CONTIG))[slot]? with
  | none => rfl
  | some ctgs =>
    have hm := List.getElem?_mem h
    rw [List.mem_replicate] at hm
    simp [hm.2, mapGet]

theorem primaryInv_init (chrDist : Bool) : PrimaryInv chrDist [] initState where
  len := by simp [initState, emptyDB]
  seen := by intro line hl; simp at hl
  seen_only := by intro gd h; simp [initState, mapGet] at h
  slot6 := by
    intro c pl gd info h
    simp [initState, lookupGene_emptyDB] at h
  entry := by
    intro slot c pl gd info h
    simp [initState, lookupGene_emptyDB] at h

theorem isSome_mapGet_mapSet (m : List (Nat × Unit)) (k k1 : Nat)
    (h : (mapGet m k1).isSome = true) : (mapGet (mapSet m k ()) k1).isSome = true := by
  rw [mapGet_mapSet]
  split_ifs <;> simp [h]

theorem accepted1_of_step (chrDist : Bool) (st st1 : DBState) (line : GoString)
    (h : ReadDBFile_step chrDist st line = some st1) :
    (accepted1 chrDist line = none ∧ st1 = st) ∨
      ∃ p : DBFields, accepted1 chrDist line = some p ∧ ReadDBFile_insert st p = some st1 := by
  unfold ReadDBFile_step at h
  unfold accepted1
  cases hf : ReadDBFile_filter line with
  | skip => simp [hf] at h; exact Or.inl ⟨rfl, h.symm⟩
  | fatal => simp [hf] at h
  | accept fields =>
    simp only [hf] at h
    cases hp : parseDBFieldsInfo chrDist fields with
    | none => simp [hp] at h
    | some p => simp only [hp] at h; exact Or.inr ⟨p, hp, h⟩

theorem accepted2_of_step (chrDist : Bool) (st st1 : DBState) (line : GoString)
    (h : ReadDBFileForChr7_step chrDist st line = some st1) :
    (accepted2 chrDist line = none ∧ st1 = st) ∨
      ∃ p : DBFields, accepted2 chrDist line = some p ∧
        ReadDBFileForChr7_insert st p = some st1 := by
  unfold ReadDBFileForChr7_step at h
  unfold accepted2
  cases hf : ReadDBFileForChr7_filter line with
  | skip => simp [hf] at h; exact Or.inl ⟨rfl, h.symm⟩
  | fatal => simp [hf] at h
  | accept fields =>
    simp only [hf] at h
    cases hp : parseDBFieldsInfo chrDist fields with
    | none => simp [hp] at h
    | some p => simp only [hp] at h; exact Or.inr ⟨p, hp, h⟩

theorem entryOf_MAP (name tag : GoString) (p : DBFields) : (entryOf name tag p).MAP = tag := by
  unfold entryOf
  split_ifs <;> rfl

theorem entryOf_GENENAME (name tag : GoString) (p : DBFields) :
    (entryOf name tag p).GENENAME = name := by
  unfold entryOf
  split_ifs <;> rfl

theorem hitsKey_self (p : DBFields) (plus : Bool) (h : p.orient = strandSign plus) :
    p.hitsKey p.contig plus p.gid = true := by
  simp [DBFields.hitsKey, h]

theorem primaryInv_step (chrDist : Bool) (pre : List GoString) (st st1 : DBState)
    (line : GoString) (inv : PrimaryInv chrDist pre st)
    (h : ReadDBFile_step chrDist st line = some st1) :
    PrimaryInv chrDist (pre ++ [line]) st1 := by
  rcases accepted1_of_step chrDist st st1 line h with ⟨hacc, rfl⟩ | ⟨p, hacc, hins⟩
  · refine ⟨inv.len, ?_, ?_, inv.slot6, ?_⟩
    · intro l hl q hq h6
      rcases List.mem_append.mp hl with hl | hl
      · exact inv.seen l hl q hq h6
      · simp at hl
        subst hl
        rw [hacc] at hq
        cases hq
    · intro gd hg
      obtain ⟨l, hl, q, hq⟩ := inv.seen_only gd hg
      exact ⟨l, List.mem_append_left _ hl, q, hq⟩
    · intro slot c pl gd info hi
      obtain ⟨hm, l, hl, q, hq⟩ := inv.entry slot c pl gd info hi
      exact ⟨hm, l, List.mem_append_left _ hl, q, hq⟩
  · obtain ⟨plus, hsign, hlt, hlen, -, hlook, hseen⟩ := ReadDBFile_insert_spec st st1 p hins
    have hgrow : ∀ gd : Nat, (mapGet st.chr7genes gd).isSome = true →
        (mapGet st1.chr7genes gd).isSome = true := by
      intro gd hg
      rw [hseen]
      split_ifs
      · exact isSome_mapGet_mapSet _ _ _ hg
      · exact hg
    have h24 : p.chrnum < 24 := inv.len ▸ hlt
    have hself : p.chrnum = 6 → (mapGet st1.chr7genes p.gid).isSome = true := by
      intro h6
      cases hl : lookupGene st.db p.chrnum p.contig plus p.gid with
      | none =>
        rw [hseen, hl, h6]
        simp [mapGet_mapSet]
      | some g =>
        apply hgrow
        rw [h6] at hl
        exact inv.slot6 _ _ _ _ hl
    have hline : line ∈ pre ++ [line] := by simp
    refine ⟨hlen.trans inv.len, ?_, ?_, ?_, ?_⟩
    · intro l hl q hq h6
      rcases List.mem_append.mp hl with hl | hl
      · exact hgrow _ (inv.seen l hl q hq h6)
      · simp at hl
        subst hl
        rw [hacc] at hq
        cases hq
        exact hself h6
    · intro gd hg
      by_cases hk : p.gid = gd ∧ p.chrnum = 6
      · exact ⟨line, hline, p, hacc, hk.2, hk.1⟩
      · have hold : (mapGet st.chr7genes gd).isSome = true := by
          rw [hseen] at hg
          split_ifs at hg with hc
          · rw [mapGet_mapSet] at hg
            by_cases hgd : p.gid = gd
            · exfalso
              apply hk
              refine ⟨hgd, ?_⟩
              have := hc.2
              omega
            · simpa [hgd] using hg
          · exact hg
        obtain ⟨l, hl, q, hq⟩ := inv.seen_only gd hold
        exact ⟨l, List.mem_append_left _ hl, q, hq⟩
    · intro c pl gd info hi
      rw [hlook] at hi
      split_ifs at hi with hk
      · obtain ⟨h6, -, -, hgd⟩ := hk
        rw [hgd]
        exact hself h6.symm
      · exact hgrow _ (inv.slot6 c pl gd info hi)
    · intro slot c pl gd info hi
      rw [hlook] at hi
      split_ifs at hi with hk
      · obtain ⟨hs, hc, hp, hgd⟩ := hk
        subst hs hc hp hgd
        have hhit := hitsKey_self p pl hsign
        cases hl : lookupGene st.db p.chrnum p.contig pl p.gid with
        | none =>
          rw [hl] at hi
          simp only [Option.some.injEq] at hi
          subst hi
          refine ⟨entryOf_MAP _ _ _, line, hline, p, hacc, rfl, hhit, ?_⟩
          rw [entryOf_GENENAME]
        | some g =>
          rw [hl] at hi
          simp only [Option.some.injEq] at hi
          subst hi
          have hg := (inv.entry _ _ _ _ g hl).1
          refine ⟨by rw [entryOf_MAP, hg], line, hline, p, hacc, rfl, hhit, ?_⟩
          rw [entryOf_GENENAME, hg]
      · obtain ⟨hm, l, hl, q, hq⟩ := inv.entry slot c pl gd info hi
        exact ⟨hm, l, List.mem_append_left _ hl, q, hq⟩

theorem primaryInv_run (chrDist : Bool) (rest : List GoString) :
    ∀ (pre : List GoString) (st st1 : DBState), PrimaryInv chrDist pre st →
      ReadDBFile chrDist st rest = some st1 → PrimaryInv chrDist (pre ++ rest) st1 := by
  induction rest with
  | nil =>
    intro pre st st1 inv h
    simp only [ReadDBFile, Option.some.injEq] at h
    subst h
    simpa using inv
  | cons line rest ih =>
    intro pre st st1 inv h
    rw [ReadDBFile] at h
    cases hs : ReadDBFile_step chrDist st line with
    | none => simp [hs] at h
    | some st2 =>
      simp only [hs] at h
      have := ih (pre ++ [line]) st2 st1 (primaryInv_step chrDist pre st st2 line inv hs) h
      simpa using this

theorem alternateInv_init (chrDist : Bool) (st0 : DBState) :
    AlternateInv chrDist st0 [] st0 where
  seen := rfl
  len := rfl
  slots := fun _ _ => rfl
  keep := fun _ _ _ _ _ h => h
  primary := fun _ _ _ _ => rfl
  fresh := by
    intro c pl gd _ h
    rw [h]
    simp [firstAccepted2]
  oriented := by intro line hl; simp at hl

theorem hitsKey_false_of_ne (p : DBFields) (plus : Bool) (hsign : p.orient = strandSign plus)
    (c : GoString) (pl : Bool) (gd : Nat)
    (hk : ¬ (c = p.contig ∧ pl = plus ∧ gd = p.gid)) : p.hitsKey c pl gd = false := by
  cases hh : p.hitsKey c pl gd with
  | false => rfl
  | true =>
    exfalso
    apply hk
    simp only [DBFields.hitsKey, Bool.and_eq_true, decide_eq_true_eq] at hh
    obtain ⟨⟨h1, h2⟩, h3⟩ := hh
    rw [hsign] at h2
    exact ⟨h1.symm, (strandSign_injective _ _ h2).symm, h3.symm⟩

theorem alternateInv_step (chrDist : Bool) (st0 : DBState) (pre : List GoString)
    (st st1 : DBState) (line : GoString) (inv : AlternateInv chrDist st0 pre st)
    (h : ReadDBFileForChr7_step chrDist st line = some st1) :
    AlternateInv chrDist st0 (pre ++ [line]) st1 := by
  rcases accepted2_of_step chrDist st st1 line h with ⟨hacc, rfl⟩ | ⟨p, hacc, hins⟩
  · have hfirst : ∀ (c : GoString) (pl : Bool) (gd : Nat),
        firstAccepted2 chrDist (pre ++ [line]) c pl gd = firstAccepted2 chrDist pre c pl gd := by
      intro c pl gd
      simp [firstAccepted2, List.filterMap_append, hacc]
    refine ⟨inv.seen, inv.len, inv.slots, inv.keep, inv.primary, ?_, ?_⟩
    · intro c pl gd h1 h2
      rw [hfirst]
      exact inv.fresh c pl gd h1 h2
    · intro l hl q hq hn
      rcases List.mem_append.mp hl with hl | hl
      · exact inv.oriented l hl q hq hn
      · simp at hl
        subst hl
        rw [hacc] at hq
        cases hq
  · have h6 := accepted2_chrnum chrDist line p hacc
    obtain ⟨hseen, hlen, hslots, hcase⟩ := ReadDBFileForChr7_insert_spec st st1 p hins
    have hfirst : ∀ (c : GoString) (pl : Bool) (gd : Nat),
        firstAccepted2 chrDist (pre ++ [line]) c pl gd =
          (firstAccepted2 chrDist pre c pl gd).or
            (if p.hitsKey c pl gd = true then some p else none) := by
      intro c pl gd
      simp [firstAccepted2, List.filterMap_append, hacc, List.find?_cons]
      cases p.hitsKey c pl gd <;> simp
    rcases hcase with ⟨hin, rfl⟩ | ⟨hout, plus, hsign, hlook⟩
    · refine ⟨inv.seen, inv.len, inv.slots, inv.keep, inv.primary, ?_, ?_⟩
      · intro c pl gd h1 h2
        have hne : p.hitsKey c pl gd = false := by
          cases hh : p.hitsKey c pl gd with
          | false => rfl
          | true =>
            simp only [DBFields.hitsKey, Bool.and_eq_true, decide_eq_true_eq] at hh
            rw [inv.seen, hh.2, h1] at hin
            cases hin
        rw [hfirst, hne]
        simpa using inv.fresh c pl gd h1 h2
      · intro l hl q hq hn
        rcases List.mem_append.mp hl with hl | hl
        · exact inv.oriented l hl q hq hn
        · simp at hl
          subst hl
          rw [hacc] at hq
          cases hq
          rw [inv.seen, hn] at hin
          cases hin
    · refine ⟨hseen.trans inv.seen, hlen.trans inv.len, ?_, ?_, ?_, ?_, ?_⟩
      · intro i hi
        rw [hslots i (by rw [h6]; exact hi)]
        exact inv.slots i hi
      · intro slot c pl gd info hi
        have hold := inv.keep slot c pl gd info hi
        rw [hlook]
        split_ifs with hk
        · obtain ⟨hs, hc, hp, hgd⟩ := hk
          subst hs hc hp hgd
          simp [hold]
        · exact hold
      · intro c pl gd hin
        rw [hlook]
        split_ifs with hk
        · exfalso
          rw [hk.2.2.2, ← inv.seen, hout] at hin
          cases hin
        · exact inv.primary c pl gd hin
      · intro c pl gd h1 h2
        have hold := inv.fresh c pl gd h1 h2
        rw [hlook, hfirst]
        split_ifs with hk hh hh
        · obtain ⟨-, hc, hp, hgd⟩ := hk
          subst hc hp hgd
          rw [h6, hold]
          cases firstAccepted2 chrDist pre p.contig pl p.gid <;> simp
        · exfalso
          obtain ⟨-, hc, hp, hgd⟩ := hk
          subst hc hp hgd
          exact hh (hitsKey_self p pl hsign)
        · exfalso
          have := hitsKey_false_of_ne p plus hsign c pl gd (fun hkk => hk ⟨h6.symm, hkk⟩)
          rw [this] at hh
          cases hh
        · simpa using hold
      · intro l hl q hq hn
        rcases List.mem_append.mp hl with hl | hl
        · exact inv.oriented l hl q hq hn
        · simp at hl
          subst hl
          rw [hacc] at hq
          cases hq
          exact ⟨plus, hsign⟩

theorem alternateInv_run (chrDist : Bool) (st0 : DBState) (rest : List GoString) :
    ∀ (pre : List GoString) (st st1 : DBState), AlternateInv chrDist st0 pre st →
      ReadDBFileForChr7 chrDist st rest = some st1 →
        AlternateInv chrDist st0 (pre ++ rest) st1 := by
  induction rest with
  | nil =>
    intro pre st st1 inv h
    simp only [ReadDBFileForChr7, Option.some.injEq] at h
    subst h
    simpa using inv
  | cons line rest ih =>
    intro pre st st1 inv h
    rw [ReadDBFileForChr7] at h
    cases hs : ReadDBFileForChr7_step chrDist st line with
    | none => simp [hs] at h
    | some st2 =>
      simp only [hs] at h
      have := ih (pre ++ [line]) st2 st1 (alternateInv_step chrDist st0 pre st st2 line inv hs) h
      simpa using this

/-! ### The index after the two passes -/

theorem plus_of_strandSign (p : DBFields) (plus : Bool) (h : p.orient = strandSign plus) :
    p.plus = plus := by
  cases plus <;> simp [DBFields.plus, strandSign] at * <;> simp [h]

theorem entryOf_coords (name tag : GoString) (p : DBFields) (plus : Bool)
    (h : p.orient = strandSign plus) :
    (entryOf name tag p).P5 = (if plus = true then p.ctg1 else p.ctg2) ∧
      (entryOf name tag p).P3 = (if plus = true then p.ctg2 else p.ctg1) := by
  unfold entryOf
  rw [plus_of_strandSign p plus h]
  cases plus <;> simp

/-- C8: after pass 1 from the empty index and the empty set `chr7genes`,
followed by pass 2 over the same lines, every entry of the chromosome-7 slot
(index 6) whose gene id occurs in some record of chromosome 7 that pass 1
accepts carries the tag `GRCh37`, is the entry that pass 1 left (pass 2 did not
touch it), and has the coordinates, assigned by the strand rule, of a record
that pass 1 accepts for that contig, strand and gene id. -/
theorem chr7_primary_wins (chrDist : Bool) (recs : List GoString) (st1 st2 : DBState)
    (h1 : ReadDBFile chrDist initState recs = some st1)
    (h2 : ReadDBFileForChr7 chrDist st1 recs = some st2)
    (contig : GoString) (plus : Bool) (gid : Nat) (info : GENEINFO)
    (hentry : lookupGene st2.db 6 contig plus gid = some info)
    (hprim : ∃ line ∈ recs, ∃ q : DBFields,
      accepted1 chrDist line = some q ∧ q.chrnum = 6 ∧ q.gid = gid) :
    info.MAP = GRCh ∧ lookupGene st1.db 6 contig plus gid = some info ∧
      ∃ line ∈ recs, ∃ p : DBFields, accepted1 chrDist line = some p ∧ p.chrnum = 6 ∧
        p.contig = contig ∧ p.orient = strandSign plus ∧ p.gid = gid ∧
        info.P5 = (if plus = true then p.ctg1 else p.ctg2) ∧
        info.P3 = (if plus = true then p.ctg2 else p.ctg1) := by
  have inv1 := primaryInv_run chrDist recs [] initState st1 (primaryInv_init chrDist) h1
  have inv2 := alternateInv_run chrDist st1 recs [] st1 st2 (alternateInv_init chrDist st1) h2
  simp only [List.nil_append] at inv1 inv2
  obtain ⟨line, hline, q, hq, hq6, hqg⟩ := hprim
  have hseen : (mapGet st1.chr7genes gid).isSome = true := hqg ▸ inv1.seen line hline q hq hq6
  have hsame := inv2.primary contig plus gid hseen
  rw [hentry] at hsame
  obtain ⟨hmap, l, hl, p, hp, hp6, hhit, hinfo⟩ := inv1.entry 6 contig plus gid info hsame.symm
  simp only [DBFields.hitsKey, Bool.and_eq_true, decide_eq_true_eq] at hhit
  obtain ⟨⟨hc, ho⟩, hg⟩ := hhit
  have hco := entryOf_coords info.GENENAME GRCh p plus ho
  rw [← hinfo] at hco
  exact ⟨hmap, hsame.symm, l, hl, p, hp, hp6, hc, ho, hg, hco.1, hco.2⟩

/-- Witness of C8 on `exampleRecs`: gene 100 on contig `NT_1` is in both
assemblies; its entry keeps the tag `GRCh37` and the coordinates 1000, 2000. -/
theorem chr7_primary_wins_witness :
    ReadDBFile false initState exampleRecs = some exampleState1 ∧
      ReadDBFileForChr7 false exampleState1 exampleRecs = some exampleState2 ∧
      lookupGene exampleState2.db 6 "NT_1".toList true 100 =
        some ⟨"GENEA".toList, 1000, 2000, GRCh⟩ ∧
      (⟨"GENEA".toList, 1000, 2000, GRCh⟩ : GENEINFO).MAP = GRCh ∧
      lookupGene exampleState1.db 6 "NT_1".toList true 100 =
        some ⟨"GENEA".toList, 1000, 2000, GRCh⟩ :=
  have h := chr7_primary_wins false exampleRecs exampleState1 exampleState2 (by decide)
    (by decide) "NT_1".toList true 100 ⟨"GENEA".toList, 1000, 2000, GRCh⟩ (by decide)
    ⟨examplePrimary, by decide,
      ⟨"NT_1".toList, ['+'], "GENEA".toList, 6, 1000, 2000, 100⟩, by decide, rfl, rfl⟩
  ⟨by decide, by decide, by decide, h.1, h.2.1⟩

/-- C9: after pass 1 from the empty index and the empty set `chr7genes`,
followed by pass 2 over the same lines, for every record that pass 2 accepts
and whose gene id occurs in no record of chromosome 7 that pass 1 accepts, the
chromosome-7 slot (index 6) holds an entry under the contig, strand and gene id
of the record; the entry carries the tag `CRA_TCAGchr7v2` and the name and the
coordinates, assigned by the strand rule, of the first record in file order
that pass 2 accepts for that contig, strand and gene id. -/
theorem chr7_alternate_only (chrDist : Bool) (recs : List GoString) (st1 st2 : DBState)
    (h1 : ReadDBFile chrDist initState recs = some st1)
    (h2 : ReadDBFileForChr7 chrDist st1 recs = some st2)
    (line : GoString) (hline : line ∈ recs) (p : DBFields)
    (hacc : accepted2 chrDist line = some p)
    (hnew : ∀ line1 ∈ recs, ∀ q : DBFields,
      accepted1 chrDist line1 = some q → q.chrnum = 6 → q.gid ≠ p.gid) :
    ∃ (plus : Bool) (p0 : DBFields) (info : GENEINFO),
      p.orient = strandSign plus ∧
        firstAccepted2 chrDist recs p.contig plus p.gid = some p0 ∧
        lookupGene st2.db 6 p.contig plus p.gid = some info ∧
        info.MAP = CHR7 ∧ info.GENENAME = p0.gname ∧
        info.P5 = (if plus = true then p0.ctg1 else p0.ctg2) ∧
        info.P3 = (if plus = true then p0.ctg2 else p0.ctg1) := by
  have inv1 := primaryInv_run chrDist recs [] initState st1 (primaryInv_init chrDist) h1
  have inv2 := alternateInv_run chrDist st1 recs [] st1 st2 (alternateInv_init chrDist st1) h2
  simp only [List.nil_append] at inv1 inv2
  have hunseen : (mapGet st1.chr7genes p.gid).isSome = false := by
    cases hs : (mapGet st1.chr7genes p.gid).isSome with
    | false => rfl
    | true =>
      obtain ⟨l, hl, q, hq, hq6, hqg⟩ := inv1.seen_only p.gid hs
      exact absurd hqg (hnew l hl q hq hq6)
  obtain ⟨plus, hsign⟩ := inv2.oriented line hline p hacc hunseen
  have habsent : lookupGene st1.db 6 p.contig plus p.gid = none := by
    cases hl : lookupGene st1.db 6 p.contig plus p.gid with
    | none => rfl
    | some g =>
      have := inv1.slot6 _ _ _ _ hl
      rw [hunseen] at this
      cases this
  have hfresh := inv2.fresh p.contig plus p.gid hunseen habsent
  have hsome : (firstAccepted2 chrDist recs p.contig plus p.gid).isSome = true := by
    unfold firstAccepted2
    rw [List.find?_isSome]
    exact ⟨p, List.mem_filterMap.mpr ⟨line, hline, hacc⟩, hitsKey_self p plus hsign⟩
  cases hf : firstAccepted2 chrDist recs p.contig plus p.gid with
  | none => rw [hf] at hsome; cases hsome
  | some p0 =>
    rw [hf] at hfresh
    have hhit : p0.hitsKey p.contig plus p.gid = true := by
      unfold firstAccepted2 at hf
      have hfound := List.find?_some hf
      exact hfound
    simp only [DBFields.hitsKey, Bool.and_eq_true, decide_eq_true_eq] at hhit
    have hco := entryOf_coords p0.gname CHR7 p0 plus hhit.1.2
    exact ⟨plus, p0, entryOf p0.gname CHR7 p0, hsign, hf, hfresh, entryOf_MAP _ _ _,
      entryOf_GENENAME _ _ _, hco.1, hco.2⟩

/-- Witness of C9 on `exampleRecs`: gene 200 is in the alternate assembly only;
pass 2 accepts its record and the two passes succeed. -/
theorem chr7_alternate_only_witness :
    ReadDBFile false initState exampleRecs = some exampleState1 ∧
      ReadDBFileForChr7 false exampleState1 exampleRecs = some exampleState2 ∧
      accepted2 false exampleAlternateOnly =
        some ⟨"NT_2".toList, ['-'], "GENEB".toList, 6, 3000, 4000, 200⟩ ∧
      lookupGene exampleState2.db 6 "NT_2".toList false 200 =
        some ⟨"GENEB".toList, 4000, 3000, CHR7⟩ ∧
      ∃ (plus : Bool) (p0 : DBFields) (info : GENEINFO),
        (['-'] : GoString) = strandSign plus ∧
          firstAccepted2 false exampleRecs "NT_2".toList plus 200 = some p0 ∧
          lookupGene exampleState2.db 6 "NT_2".toList plus 200 = some info ∧
          info.MAP = CHR7 ∧ info.GENENAME = p0.gname ∧
          info.P5 = (if plus = true then p0.ctg1 else p0.ctg2) ∧
          info.P3 = (if plus = true then p0.ctg2 else p0.ctg1) :=
  ⟨by decide, by decide, by decide, by decide,
    chr7_alternate_only false exampleRecs exampleState1 exampleState2 (by decide) (by decide)
      exampleAlternateOnly (by decide)
      ⟨"NT_2".toList, ['-'], "GENEB".toList, 6, 3000, 4000, 200⟩ (by decide) (by decide)⟩

/-- C10: pass 2 only adds.  For the index and the set `chr7genes` that pass 1
produces from any lines, and any lines given to pass 2, every entry
(slot, contig, strand, gene id) present before pass 2 is present afterwards
with the same name, `P5`, `P3` and tag, and every slot other than the
chromosome-7 slot (index 6) is unchanged. -/
theorem pass2_only_adds (chrDist : Bool) (recs1 recs2 : List GoString) (st1 st2 : DBState)
    (_h1 : ReadDBFile chrDist initState recs1 = some st1)
    (h2 : ReadDBFileForChr7 chrDist st1 recs2 = some st2) :
    (∀ (slot : Nat) (c : GoString) (pl : Bool) (gd : Nat) (info : GENEINFO),
        lookupGene st1.db slot c pl gd = some info →
          lookupGene st2.db slot c pl gd = some info) ∧
      (∀ i : Nat, i ≠ 6 → st2.db[i]? = st1.db[i]?) := by
  have inv2 := alternateInv_run chrDist st1 recs2 [] st1 st2 (alternateInv_init chrDist st1) h2
  exact ⟨inv2.keep, inv2.slots⟩

/-- Witness of C10 on `exampleRecs`: the entry of gene 100 is kept and slot 0 is
unchanged. -/
theorem pass2_only_adds_witness :
    ReadDBFile false initState exampleRecs = some exampleState1 ∧
      ReadDBFileForChr7 false exampleState1 exampleRecs = some exampleState2 ∧
      lookupGene exampleState1.db 6 "NT_1".toList true 100 =
        some ⟨"GENEA".toList, 1000, 2000, GRCh⟩ ∧
      lookupGene exampleState2.db 6 "NT_1".toList true 100 =
        some ⟨"GENEA".toList, 1000, 2000, GRCh⟩ ∧
      exampleState2.db[0]? = exampleState1.db[0]? :=
  have h := pass2_only_adds false exampleRecs exampleRecs exampleState1 exampleState2
    (by decide) (by decide)
  ⟨by decide, by decide, by decide,
    h.1 6 "NT_1".toList true 100 ⟨"GENEA".toList, 1000, 2000, GRCh⟩ (by decide),
    h.2 0 (by decide)⟩

/-! ### Tie sets in minimum mode and `Pop` -/

theorem foldl_min_le (L : List GENE_DIST_INFO) :
    ∀ m : Nat, L.foldl (fun a c => min a c.DIST) m ≤ m := by
  induction L with
  | nil => intro m; exact Nat.le_refl m
  | cons c L ih =>
    intro m
    exact Nat.le_trans (ih (min m c.DIST)) (Nat.min_le_left m c.DIST)

theorem foldl_min_le_mem (L : List GENE_DIST_INFO) :
    ∀ (m : Nat) (x : GENE_DIST_INFO), x ∈ L →
      L.foldl (fun a c => min a c.DIST) m ≤ x.DIST := by
  induction L with
  | nil => intro m x hx; simp at hx
  | cons c L ih =>
    intro m x hx
    rcases List.mem_cons.mp hx with h | h
    · subst h
      exact Nat.le_trans (foldl_min_le L (min m x.DIST)) (Nat.min_le_right m x.DIST)
    · exact ih (min m c.DIST) x h

theorem foldl_min_attained (L : List GENE_DIST_INFO) :
    ∀ m : Nat, L.foldl (fun a c => min a c.DIST) m = m ∨
      ∃ x ∈ L, x.DIST = L.foldl (fun a c => min a c.DIST) m := by
  induction L with
  | nil => intro m; exact Or.inl rfl
  | cons c L ih =>
    intro m
    rcases ih (min m c.DIST) with h | ⟨x, hx, hxm⟩
    · by_cases hc : m ≤ c.DIST
      · left
        simp only [List.foldl_cons]
        rw [h]
        exact Nat.min_eq_left hc
      · right
        refine ⟨c, List.mem_cons_self _ _, ?_⟩
        simp only [List.foldl_cons]
        rw [h]
        exact (Nat.min_eq_right (by omega)).symm
    · exact Or.inr ⟨x, List.mem_cons_of_mem _ hx, hxm⟩

theorem pushAll_tie_set (Dist : Int) (hD : Dist < 0) (L : List GENE_DIST_INFO) :
    ∀ (s : List GENE_DIST_INFO) (m : Nat), s ≠ [] → (∀ x ∈ s, x.DIST = m) →
      pushAll Dist ⟨s⟩ L =
        some ⟨(s ++ L).filter
          (fun x => decide (x.DIST = L.foldl (fun a c => min a c.DIST) m))⟩ := by
  induction L with
  | nil =>
    intro s m _ hall
    simp only [pushAll, List.append_nil, List.foldl_nil]
    congr 2
    symm
    rw [List.filter_eq_self]
    intro x hx
    simp [hall x hx]
  | cons c L ih =>
    intro s m hne hall
    obtain ⟨e, rest, rfl⟩ := List.exists_cons_of_ne_nil hne
    have hem : e.DIST = m := hall e (List.mem_cons_self _ _)
    have hpush := push_minimum_cases Dist hD e rest c
    rw [pushAll]
    rcases Nat.lt_trichotomy c.DIST e.DIST with hlt | heq | hgt
    · rw [hpush.1 hlt]
      simp only []
      rw [ih [c] c.DIST (by simp) (by simp)]
      have hmin : min m c.DIST = c.DIST := Nat.min_eq_right (by omega)
      simp only [List.foldl_cons, hmin]
      congr 2
      have hM := foldl_min_le L c.DIST
      rw [List.filter_append, List.filter_append]
      have hnone : (e :: rest).filter
          (fun x => decide (x.DIST = L.foldl (fun a c => min a c.DIST) c.DIST)) = [] := by
        rw [List.filter_eq_nil_iff]
        intro x hx
        have := hall x hx
        simp only [decide_eq_true_eq]
        omega
      rw [hnone, List.nil_append, ← List.filter_append, List.singleton_append]
    · rw [hpush.2.1 heq]
      simp only []
      rw [ih ((e :: rest) ++ [c]) m (by simp) (by
        intro x hx
        rcases List.mem_append.mp hx with h | h
        · exact hall x h
        · simp at h; subst h; omega)]
      have hmin : min m c.DIST = m := Nat.min_eq_left (by omega)
      simp only [List.foldl_cons, hmin, List.append_assoc, List.singleton_append]
    · rw [hpush.2.2 hgt]
      simp only []
      rw [ih (e :: rest) m hne hall]
      have hmin : min m c.DIST = m := Nat.min_eq_left (by omega)
      simp only [List.foldl_cons, hmin]
      congr 2
      have hM := foldl_min_le L m
      rw [List.filter_append, List.filter_append, List.filter_cons]
      have hc : decide (c.DIST = L.foldl (fun a c => min a c.DIST) m) = false := by
        simp only [decide_eq_false_iff_not]
        omega
      simp [hc]

/-- C19: in minimum mode (`Dist < 0`), if a set is non-empty and all its
candidates have the distance `m`, then `Push c` succeeds and leaves a non-empty
set all of whose candidates have the distance `min m c.DIST`; and pushing any
list `L` onto the one-element set `[c0]` succeeds and leaves exactly the
candidates of `c0 :: L` whose distance is the minimum `m` over `c0 :: L`, in
push order. -/
theorem minimum_tie_set (Dist : Int) (hD : Dist < 0) :
    (∀ (s : List GENE_DIST_INFO) (m : Nat) (c : GENE_DIST_INFO),
        s ≠ [] → (∀ x ∈ s, x.DIST = m) →
          ∃ s1 : List GENE_DIST_INFO, Push Dist ⟨s⟩ c = some ⟨s1⟩ ∧ s1 ≠ [] ∧
            ∀ x ∈ s1, x.DIST = min m c.DIST) ∧
      (∀ (c0 : GENE_DIST_INFO) (L : List GENE_DIST_INFO),
        ∃ m : Nat, (∀ x ∈ c0 :: L, m ≤ x.DIST) ∧ (∃ x ∈ c0 :: L, x.DIST = m) ∧
          pushAll Dist ⟨[c0]⟩ L =
            some ⟨(c0 :: L).filter (fun x => decide (x.DIST = m))⟩) := by
  constructor
  · intro s m c hne hall
    obtain ⟨e, rest, rfl⟩ := List.exists_cons_of_ne_nil hne
    have hem : e.DIST = m := hall e (List.mem_cons_self _ _)
    have hpush := push_minimum_cases Dist hD e rest c
    rcases Nat.lt_trichotomy c.DIST e.DIST with hlt | heq | hgt
    · refine ⟨[c], hpush.1 hlt, by simp, ?_⟩
      intro x hx
      simp at hx
      subst hx
      exact (Nat.min_eq_right (by omega)).symm
    · refine ⟨(e :: rest) ++ [c], hpush.2.1 heq, by simp, ?_⟩
      intro x hx
      rw [Nat.min_eq_left (by omega)]
      rcases List.mem_append.mp hx with h | h
      · exact hall x h
      · simp at h
        subst h
        omega
    · refine ⟨e :: rest, hpush.2.2 hgt, by simp, ?_⟩
      intro x hx
      rw [Nat.min_eq_left (by omega)]
      exact hall x hx
  · intro c0 L
    refine ⟨L.foldl (fun a c => min a c.DIST) c0.DIST, ?_, ?_, ?_⟩
    · intro x hx
      rcases List.mem_cons.mp hx with h | h
      · subst h
        exact foldl_min_le L x.DIST
      · exact foldl_min_le_mem L c0.DIST x h
    · rcases foldl_min_attained L c0.DIST with h | ⟨x, hx, hxm⟩
      · exact ⟨c0, List.mem_cons_self _ _, h.symm⟩
      · exact ⟨x, List.mem_cons_of_mem _ hx, hxm⟩
    · have := pushAll_tie_set Dist hD L [c0] c0.DIST (by simp) (by simp)
      simpa using this

/-- Witness of C19 at `Dist = -1`: a push onto the tie set of distance 50, and
the pushes of distances 30, 70, 30 onto the one-element set of distance 50. -/
theorem minimum_tie_set_witness :
    ((-1 : Int) < 0) ∧
      (∃ s1 : List GENE_DIST_INFO,
        Push (-1) ⟨[⟨1, ['A'], 50⟩, ⟨2, ['B'], 50⟩]⟩ ⟨3, ['C'], 40⟩ = some ⟨s1⟩ ∧ s1 ≠ [] ∧
          ∀ x ∈ s1, x.DIST = min 50 40) ∧
      (∃ m : Nat,
        (∀ x ∈ [(⟨1, ['A'], 50⟩ : GENE_DIST_INFO), ⟨2, ['B'], 30⟩, ⟨3, ['C'], 70⟩,
          ⟨4, ['D'], 30⟩], m ≤ x.DIST) ∧
        (∃ x ∈ [(⟨1, ['A'], 50⟩ : GENE_DIST_INFO), ⟨2, ['B'], 30⟩, ⟨3, ['C'], 70⟩,
          ⟨4, ['D'], 30⟩], x.DIST = m) ∧
        pushAll (-1) ⟨[⟨1, ['A'], 50⟩]⟩ [⟨2, ['B'], 30⟩, ⟨3, ['C'], 70⟩, ⟨4, ['D'], 30⟩] =
          some ⟨[(⟨1, ['A'], 50⟩ : GENE_DIST_INFO), ⟨2, ['B'], 30⟩, ⟨3, ['C'], 70⟩,
            ⟨4, ['D'], 30⟩].filter (fun x => decide (x.DIST = m))⟩) :=
  ⟨by decide,
    (minimum_tie_set (-1) (by decide)).1 [⟨1, ['A'], 50⟩, ⟨2, ['B'], 50⟩] 50 ⟨3, ['C'], 40⟩
      (by decide) (by decide),
    (minimum_tie_set (-1) (by decide)).2 ⟨1, ['A'], 50⟩
      [⟨2, ['B'], 30⟩, ⟨3, ['C'], 70⟩, ⟨4, ['D'], 30⟩]⟩

theorem pop_append (s : List GENE_DIST_INFO) (x : GENE_DIST_INFO) :
    Pop ⟨s ++ [x]⟩ = (some x, ⟨s⟩) := by
  simp [Pop]

theorem popLoop_drains (rsnum p : Nat) :
    ∀ (s : List GENE_DIST_INFO) (n : Nat), s.length < n →
      popLoop rsnum p n ⟨s⟩ =
        some (s.reverse.map (fun i => ⟨rsnum, i.GENEID, i.GENENAME, i.DIST, p⟩), ⟨[]⟩) := by
  intro s
  induction s using List.reverseRecOn with
  | nil =>
    intro n hn
    obtain ⟨k, rfl⟩ : ∃ k, n = k + 1 := ⟨n - 1, by simp at hn; omega⟩
    simp [popLoop, Pop]
  | append_singleton s x ih =>
    intro n hn
    obtain ⟨k, rfl⟩ : ∃ k, n = k + 1 := ⟨n - 1, by simp at hn; omega⟩
    have hk : s.length < k := by simp at hn; omega
    rw [popLoop, pop_append]
    simp only []
    rw [ih k hk]
    simp

/-- C16: `Pop` on a non-empty set returns its last element and leaves the set
without it; on the empty set it returns `nil` and leaves the set empty.  In
threshold mode (`Dist = T ≥ 0`) with `c.DIST ≤ T`, `Push c` followed by `Pop`
returns `c` and restores the set.  The loop of `printOutR2GMap`, which repeats
`Pop`, ends with the set empty and has emitted the candidates last-pushed
first. -/
theorem pop_returns_last :
    (∀ s : List GENE_DIST_INFO, s ≠ [] →
        Pop ⟨s⟩ = (s.getLast?, ⟨s.dropLast⟩) ∧ s.getLast?.isSome = true) ∧
      Pop ⟨[]⟩ = (none, ⟨[]⟩) ∧
      (∀ (T : Int) (s : RS2GENE_DIST_INFO_LIST) (c : GENE_DIST_INFO),
        0 ≤ T → (c.DIST : Int) ≤ T →
          ∃ s1 : RS2GENE_DIST_INFO_LIST, s.Push T c = some s1 ∧ s1.Pop = (some c, s)) ∧
      (∀ (rsnum p : Nat) (s : RS2GENE_DIST_INFO_LIST),
        printOutR2GMap rsnum s p =
          some (s.DISTINFO.reverse.map (fun i => ⟨rsnum, i.GENEID, i.GENENAME, i.DIST, p⟩),
            ⟨[]⟩)) := by
  refine ⟨?_, by simp [Pop], ?_, ?_⟩
  · intro s hs
    obtain ⟨t, x, rfl⟩ : ∃ t x, s = t ++ [x] :=
      ⟨s.dropLast, s.getLast hs, (List.dropLast_append_getLast hs).symm⟩
    rw [pop_append]
    simp
  · intro T s c hT hc
    refine ⟨⟨s.DISTINFO ++ [c]⟩, ?_, pop_append _ _⟩
    rw [push_of_threshold T hT]
    simp [hc]
  · intro rsnum p s
    exact popLoop_drains rsnum p s.DISTINFO _ (Nat.lt_succ_self _)

/-- Witness of C16 at `T = 1000`: `Pop` on a set of two candidates, and `Push`
of a candidate of distance 700 followed by `Pop`. -/
theorem pop_returns_last_witness :
    ([(⟨1, ['A'], 500⟩ : GENE_DIST_INFO), ⟨2, ['B'], 900⟩] ≠ []) ∧
      Pop ⟨[⟨1, ['A'], 500⟩, ⟨2, ['B'], 900⟩]⟩ =
        (some ⟨2, ['B'], 900⟩, ⟨[⟨1, ['A'], 500⟩]⟩) ∧
      ((0 : Int) ≤ 1000) ∧ (((⟨3, ['C'], 700⟩ : GENE_DIST_INFO).DIST : Int) ≤ 1000) ∧
      ∃ s1 : RS2GENE_DIST_INFO_LIST,
        Push 1000 ⟨[⟨1, ['A'], 500⟩, ⟨2, ['B'], 900⟩]⟩ ⟨3, ['C'], 700⟩ = some s1 ∧
          s1.Pop = (some ⟨3, ['C'], 700⟩, ⟨[⟨1, ['A'], 500⟩, ⟨2, ['B'], 900⟩]⟩) :=
  ⟨by decide,
    (pop_returns_last.1 [⟨1, ['A'], 500⟩, ⟨2, ['B'], 900⟩] (by decide)).1.trans (by decide),
    by decide, by decide,
    pop_returns_last.2.2.1 1000 ⟨[⟨1, ['A'], 500⟩, ⟨2, ['B'], 900⟩]⟩ ⟨3, ['C'], 700⟩
      (by decide) (by decide)⟩

/-! ### The dump -/

theorem mem_PrintDB_slot (i : Nat) (l : DumpLine) (ctgs : CONTIG) :
    l ∈ PrintDB_slot i ctgs ↔
      ∃ (contig : GoString) (o : ORIENT), (contig, o) ∈ ctgs ∧ l ∈ PrintDB_contig i contig o := by
  induction ctgs with
  | nil => simp [PrintDB_slot]
  | cons e rest ih =>
    obtain ⟨c, o⟩ := e
    simp only [PrintDB_slot, List.mem_append, ih, List.mem_cons]
    constructor
    · rintro (h | ⟨c1, o1, hm, hl⟩)
      · exact ⟨c, o, Or.inl rfl, h⟩
      · exact ⟨c1, o1, Or.inr hm, hl⟩
    · rintro ⟨c1, o1, h | h, hl⟩
      · cases h
        exact Or.inl hl
      · exact Or.inr ⟨c1, o1, h, hl⟩

theorem mem_PrintDB_from (l : DumpLine) (db : List CONTIG) :
    ∀ i : Nat, l ∈ PrintDB_from i db ↔
      ∃ (k : Nat) (ctgs : CONTIG), db[k]? = some ctgs ∧ l ∈ PrintDB_slot (i + k) ctgs := by
  induction db with
  | nil =>
    intro i
    constructor
    · intro h
      simp [PrintDB_from] at h
    · rintro ⟨k, ctgs, hk, -⟩
      simp at hk
  | cons c rest ih =>
    intro i
    simp only [PrintDB_from, List.mem_append, ih]
    constructor
    · rintro (h | ⟨k, ctgs, hk, hl⟩)
      · exact ⟨0, c, by simp, h⟩
      · refine ⟨k + 1, ctgs, by simpa using hk, ?_⟩
        have : i + (k + 1) = i + 1 + k := by omega
        rw [this]
        exact hl
    · rintro ⟨k, ctgs, hk, hl⟩
      cases k with
      | zero =>
        simp at hk
        subst hk
        exact Or.inl hl
      | succ k =>
        refine Or.inr ⟨k, ctgs, by simpa using hk, ?_⟩
        have : i + (k + 1) = i + 1 + k := by omega
        rw [← this]
        exact hl

/-- C18 as stated fails: in the index `exampleState2`, gene 200 is stored in the
`MINUS` map with `P5 = 4000` and `P3 = 3000`; the dump has two lines, and the
line of gene 200 lists 3000 (`P3`) and then 4000 (`P5`), so the line with `P5`
before `P3` is not in the dump. -/
theorem dump_minus_not_P5_P3 :
    lookupGene exampleState2.db 6 "NT_2".toList false 200 =
        some ⟨"GENEB".toList, 4000, 3000, CHR7⟩ ∧
      PrintDB exampleState2.db =
        [⟨7, "NT_1".toList, 100, "GENEA".toList, 1000, 2000, ['+'], GRCh⟩,
          ⟨7, "NT_2".toList, 200, "GENEB".toList, 3000, 4000, ['-'], CHR7⟩] ∧
      (⟨7, "NT_2".toList, 200, "GENEB".toList, 4000, 3000, ['-'], CHR7⟩ : DumpLine) ∉
        PrintDB exampleState2.db := by
  decide

/-- C18, amended: the lines of the dump are exactly the following, one for
every entry of the index.  For an entry `g` under gene id `gid` in the `PLUS`
map of `contig` in slot `slot`: `slot + 1`, contig, gene id, gene name, `P5`,
`P3`, `"+"`, tag.  For an entry in the `MINUS` map: `slot + 1`, contig, gene
id, gene name, `P3`, `P5`, `"-"`, tag. -/
theorem PrintDB_lines (db : SEQGENEDB) (l : DumpLine) :
    l ∈ PrintDB db ↔
      ∃ (slot : Nat) (ctgs : CONTIG) (contig : GoString) (o : ORIENT) (gid : Nat)
        (g : GENEINFO), db[slot]? = some ctgs ∧ (contig, o) ∈ ctgs ∧
          (((gid, g) ∈ o.PLUS ∧
              l = ⟨slot + 1, contig, gid, g.GENENAME, g.P5, g.P3, ['+'], g.MAP⟩) ∨
            ((gid, g) ∈ o.MINUS ∧
              l = ⟨slot + 1, contig, gid, g.GENENAME, g.P3, g.P5, ['-'], g.MAP⟩)) := by
  unfold PrintDB
  rw [mem_PrintDB_from]
  constructor
  · rintro ⟨k, ctgs, hk, hl⟩
    rw [mem_PrintDB_slot] at hl
    obtain ⟨contig, o, hm, hl⟩ := hl
    simp only [PrintDB_contig, List.mem_append, List.mem_map, Nat.zero_add] at hl
    rcases hl with ⟨e, he, rfl⟩ | ⟨e, he, rfl⟩
    · exact ⟨k, ctgs, contig, o, e.1, e.2, hk, hm, Or.inl ⟨he, rfl⟩⟩
    · exact ⟨k, ctgs, contig, o, e.1, e.2, hk, hm, Or.inr ⟨he, rfl⟩⟩
  · rintro ⟨slot, ctgs, contig, o, gid, g, hk, hm, h⟩
    refine ⟨slot, ctgs, hk, ?_⟩
    rw [mem_PrintDB_slot]
    refine ⟨contig, o, hm, ?_⟩
    simp only [PrintDB_contig, List.mem_append, List.mem_map, Nat.zero_add]
    rcases h with ⟨he, rfl⟩ | ⟨he, rfl⟩
    · exact Or.inl ⟨(gid, g), he, rfl⟩
    · exact Or.inr ⟨(gid, g), he, rfl⟩

/-! ### Chromosome numbers -/

/-- C13: the line `exampleChr99`, a `GENE` record of the primary assembly with
the chromosome field `99`, passes the filters (`99` matches `chrNumPattern`),
`parseDBFieldsInfo` yields the slot 98, which is outside `0..23`, and the
indexing `db[chrnum]` of the 24-slot index panics in pass 1. -/
theorem chr99_slot_out_of_range :
    chrNumPattern_MatchString "99".toList = true ∧
      accepted1 false exampleChr99 =
        some ⟨"NT_1".toList, ['+'], "GENEZ".toList, 98, 1000, 2000, 300⟩ ∧
      initState.db.length = 24 ∧
      ReadDBFile_step false initState exampleChr99 = none := by
  decide

/-- C15: the chromosome field `7|NT_x` is normalized to `7` by the record
parser, which assigns slot 6 to a database record with that field; the resolver
parses the whole field as a number, so the marker line `exampleMarkerSuffix`
with the same chromosome field is fatal.  The marker line `exampleMarker99`,
whose chromosome field `99` matches `chrNumPattern`, indexes the index out of
range. -/
theorem marker_chromosome_fatal :
    parseChrNum "7|NT_x".toList = some ['7'] ∧
      (accepted1 false exampleChrSuffix).map DBFields.chrnum = some 6 ∧
      chrNumPattern_MatchString (markerChr "7|NT_x".toList) = true ∧
      MustParseUint (markerChr "7|NT_x".toList) = none ∧
      ParseRSList_step trimNewLine 1000 [] (initRS exampleState2.db) exampleMarkerSuffix =
        none ∧
      ParseRSList_step trimNewLine 1000 [] (initRS exampleState2.db) exampleMarker99 =
        none := by
  decide

/-! ### Markers without a contig in the index -/

/-- C14: the marker 1 of the line `exampleMarkerLostSuffix` is not excluded, its
chromosome field `7|NT_x` denotes chromosome 7 for the record parser, and slot
6 of the index `exampleState2` has no contig `NT_9`; yet the iteration of the
resolver does not append the marker to `lostnfound`: `MustParseUint` on the
whole field is fatal.  The marker 2 of `exampleMarkerLost99`, on the chromosome
field `99`, which matches `chrNumPattern`, is not appended either: `db[98]`
panics.  The markers 5 and 6, on the chromosome fields `7` and `X` and the same
absent contig, are appended to `lostnfound` and print no line. -/
theorem marker_lost_chromosome_fatal :
    parseChrNum "7|NT_x".toList = some ['7'] ∧
      (exampleState2.db[6]?).bind (fun ctgs => mapGet ctgs "NT_9".toList) = none ∧
      (mapGet ([] : List (Nat × Unit)) 1).isSome = false ∧
      ParseRSList_step trimNewLine (-1) [] (initRS exampleState2.db)
        exampleMarkerLostSuffix = none ∧
      chrNumPattern_MatchString (markerChr "99".toList) = true ∧
      ParseRSList_step trimNewLine (-1) [] (initRS exampleState2.db) exampleMarkerLost99 =
        none ∧
      ParseRSList_step trimNewLine (-1) [] (initRS exampleState2.db) exampleMarkerLost =
        some ⟨exampleState2.db, emptySet, emptySet, [5], []⟩ ∧
      ParseRSList_step trimNewLine (-1) [] (initRS exampleState2.db) exampleMarkerLostX =
        some ⟨exampleState2.db, emptySet, emptySet, [6], []⟩ := by
  decide

/-- Where the resolver parses the marker line: let a line of the marker list
have a chromosome field that, after the mapping of `X` and `Y`, matches
`chrNumPattern`, and a marker id `rsnum`.  If `rsnum` is in the excluded set,
the iteration changes nothing: no line is printed and the list `lostnfound`
stays as it is.  If it is not, the chromosome field and the position are
numbers, the slot is one of the index and the contig is absent from that slot,
then the iteration succeeds, appends `rsnum` once at the end of `lostnfound`,
prints no line and leaves the index as it is. -/
theorem marker_lost_or_excluded (TrimNewLine : GoString → GoString) (Dist : Int)
    (exclSNP : List (Nat × Unit)) (st : RSState) (line f1 : GoString) (rsnum : Nat)
    (hf1 : (splitTab (TrimNewLine line))[1]? = some f1)
    (hpat : chrNumPattern_MatchString (markerChr f1) = true)
    (hrs : ((splitTab (TrimNewLine line))[0]?).bind MustParseUint = some rsnum) :
    ((mapGet exclSNP rsnum).isSome = true →
        ParseRSList_step TrimNewLine Dist exclSNP st line = some st) ∧
      ((mapGet exclSNP rsnum).isSome = false →
        ∀ (n pos : Nat) (contig : GoString) (ctgs : CONTIG),
          MustParseUint (markerChr f1) = some n →
          (splitTab (TrimNewLine line))[2]? = some contig →
          ((splitTab (TrimNewLine line))[3]?).bind MustParseUint = some pos →
          st.db[(n + 4294967295) % 4294967296]? = some ctgs →
          mapGet ctgs contig = none →
          ∃ st1 : RSState, ParseRSList_step TrimNewLine Dist exclSNP st line = some st1 ∧
            st1.lostnfound = st.lostnfound ++ [rsnum] ∧ st1.out = st.out ∧
            st1.db = st.db) := by
  constructor
  · intro hex
    unfold ParseRSList_step
    simp only [hf1, hpat, hrs, hex, Bool.not_true, Bool.false_eq_true, if_false, if_true]
  · intro hex n pos contig ctgs hn hc hp hdb hget
    unfold ParseRSList_step
    simp only [hf1, hpat, hrs, hex, hn, hc, hp, hdb, hget, Bool.not_true,
      Bool.false_eq_true, if_false]
    exact ⟨_, rfl, rfl, rfl, rfl⟩

/-- An instance of `marker_lost_or_excluded`: marker 5 on contig `NT_9` of
chromosome 7, which the index `exampleState2` lacks; with the excluded set `{5}` the marker is skipped, with
the empty excluded set it is appended to `lostnfound`. -/
theorem marker_lost_or_excluded_witness :
    (splitTab (trimNewLine exampleMarkerLost))[1]? = some ['7'] ∧
      chrNumPattern_MatchString (markerChr ['7']) = true ∧
      ((splitTab (trimNewLine exampleMarkerLost))[0]?).bind MustParseUint = some 5 ∧
      ParseRSList_step trimNewLine (-1) [(5, ())] (initRS exampleState2.db)
          exampleMarkerLost = some (initRS exampleState2.db) ∧
      ∃ st1 : RSState,
        ParseRSList_step trimNewLine (-1) [] (initRS exampleState2.db) exampleMarkerLost =
            some st1 ∧
          st1.lostnfound = (initRS exampleState2.db).lostnfound ++ [5] ∧
          st1.out = (initRS exampleState2.db).out ∧ st1.db = (initRS exampleState2.db).db :=
  ⟨by decide, by decide, by decide,
    (marker_lost_or_excluded trimNewLine (-1) [(5, ())] (initRS exampleState2.db)
      exampleMarkerLost ['7'] 5 (by decide) (by decide) (by decide)).1 (by decide),
    (marker_lost_or_excluded trimNewLine (-1) [] (initRS exampleState2.db)
      exampleMarkerLost ['7'] 5 (by decide) (by decide) (by decide)).2 (by decide)
      7 500 "NT_9".toList exampleSlot2 (by decide) (by decide) (by decide) (by decide)
      (by decide)⟩

/-! ### The strand rule -/

theorem step1_eq_insert (chrDist : Bool) (st : DBState) (line : GoString) (p : DBFields)
    (h : accepted1 chrDist line = some p) :
    ReadDBFile_step chrDist st line = ReadDBFile_insert st p := by
  unfold accepted1 at h
  unfold ReadDBFile_step
  cases hf : ReadDBFile_filter line with
  | skip => simp [hf] at h
  | fatal => simp [hf] at h
  | accept fields =>
    simp only [hf] at h
    simp only [h]

theorem step2_eq_insert (chrDist : Bool) (st : DBState) (line : GoString) (p : DBFields)
    (h : accepted2 chrDist line = some p) :
    ReadDBFileForChr7_step chrDist st line = ReadDBFileForChr7_insert st p := by
  unfold accepted2 at h
  unfold ReadDBFileForChr7_step
  cases hf : ReadDBFileForChr7_filter line with
  | skip => simp [hf] at h
  | fatal => simp [hf] at h
  | accept fields =>
    simp only [hf] at h
    simp only [h]

theorem insert1_bad_orient (st : DBState) (p : DBFields) (hp : p.orient ≠ ['+'])
    (hm : p.orient ≠ ['-']) : ReadDBFile_insert st p = none := by
  unfold ReadDBFile_insert
  cases st.db[p.chrnum]? with
  | none => rfl
  | some ctgs => simp only [if_neg hp, if_neg hm]

theorem insert2_bad_orient (st : DBState) (p : DBFields)
    (hs : (mapGet st.chr7genes p.gid).isSome = false) (hp : p.orient ≠ ['+'])
    (hm : p.orient ≠ ['-']) : ReadDBFileForChr7_insert st p = none := by
  unfold ReadDBFileForChr7_insert
  rw [hs]
  simp only [Bool.false_eq_true, if_false]
  cases st.db[p.chrnum]? with
  | none => rfl
  | some ctgs => simp only [if_neg hp, if_neg hm]

theorem strandSign_cases (p : DBFields) (plus : Bool) (h : p.orient = strandSign plus) :
    (plus = true ∧ p.orient = ['+']) ∨ (plus = false ∧ p.orient = ['-']) := by
  cases plus
  · exact Or.inr ⟨rfl, by simpa [strandSign] using h⟩
  · exact Or.inl ⟨rfl, by simpa [strandSign] using h⟩

/-- C12 as stated fails for pass 2: the line `exampleBadOrient` of the alternate
assembly has the orientation `?` and passes the filters of pass 2, but its gene
id 100 is in `chr7genes`, so the iteration is a `continue` that leaves the state
as it is; it is not a fatal error. -/
theorem pass2_bad_orient_skipped :
    accepted2 false exampleBadOrient =
        some ⟨"NT_1".toList, ['?'], "GENEA".toList, 6, 1500, 2500, 100⟩ ∧
      (mapGet exampleState1.chr7genes 100).isSome = true ∧
      ReadDBFileForChr7_step false exampleState1 exampleBadOrient = some exampleState1 := by
  decide

/-- C12, amended.  Let `p` be the record parsed from a line, with the
coordinates `p.ctg1`, `p.ctg2` in the order of the record.
Pass 1: right after an iteration that succeeds on an accepted record, either
the orientation is `"+"` and the entry in the `PLUS` map has `P5 = ctg1` and
`P3 = ctg2`, or the orientation is `"-"` and the entry in the `MINUS` map has
`P3 = ctg1` and `P5 = ctg2`.
Pass 2: right after an iteration that succeeds on an accepted record whose
gene id is not in `chr7genes` and whose entry is absent, the entry exists with
the name of the record, the tag `CHR7` and the coordinates assigned by the same
rule.
An accepted record with another orientation is fatal in pass 1, and in pass 2
when its gene id is not in `chr7genes`. -/
theorem strand_coordinate_rule (chrDist : Bool) (st st1 : DBState) (line : GoString)
    (p : DBFields) :
    (accepted1 chrDist line = some p → ReadDBFile_step chrDist st line = some st1 →
        (p.orient = ['+'] ∧ ∃ g : GENEINFO,
            lookupGene st1.db p.chrnum p.contig true p.gid = some g ∧
              g.P5 = p.ctg1 ∧ g.P3 = p.ctg2) ∨
          (p.orient = ['-'] ∧ ∃ g : GENEINFO,
            lookupGene st1.db p.chrnum p.contig false p.gid = some g ∧
              g.P3 = p.ctg1 ∧ g.P5 = p.ctg2)) ∧
      (accepted2 chrDist line = some p → (mapGet st.chr7genes p.gid).isSome = false →
        ReadDBFileForChr7_step chrDist st line = some st1 →
        (p.orient = ['+'] ∧
            (lookupGene st.db p.chrnum p.contig true p.gid = none →
              lookupGene st1.db p.chrnum p.contig true p.gid =
                some ⟨p.gname, p.ctg1, p.ctg2, CHR7⟩)) ∨
          (p.orient = ['-'] ∧
            (lookupGene st.db p.chrnum p.contig false p.gid = none →
              lookupGene st1.db p.chrnum p.contig false p.gid =
                some ⟨p.gname, p.ctg2, p.ctg1, CHR7⟩))) ∧
      (accepted1 chrDist line = some p → p.orient ≠ ['+'] → p.orient ≠ ['-'] →
        ReadDBFile_step chrDist st line = none) ∧
      (accepted2 chrDist line = some p → (mapGet st.chr7genes p.gid).isSome = false →
        p.orient ≠ ['+'] → p.orient ≠ ['-'] →
        ReadDBFileForChr7_step chrDist st line = none) := by
  refine ⟨?_, ?_, ?_, ?_⟩
  · intro hacc hstep
    rw [step1_eq_insert chrDist st line p hacc] at hstep
    obtain ⟨plus, hsign, -, -, -, hlook, -⟩ := ReadDBFile_insert_spec st st1 p hstep
    have hl := hlook p.chrnum p.contig plus p.gid
    simp only [and_self, if_true] at hl
    rcases strandSign_cases p plus hsign with ⟨rfl, ho⟩ | ⟨rfl, ho⟩
    · left
      refine ⟨ho, _, hl, ?_⟩
      cases lookupGene st.db p.chrnum p.contig true p.gid <;>
        simp [entryOf_plus _ _ _ hsign]
    · right
      refine ⟨ho, _, hl, ?_⟩
      cases lookupGene st.db p.chrnum p.contig false p.gid <;>
        simp [entryOf_minus _ _ _ hsign]
  · intro hacc hs hstep
    rw [step2_eq_insert chrDist st line p hacc] at hstep
    obtain ⟨-, -, -, hcase⟩ := ReadDBFileForChr7_insert_spec st st1 p hstep
    rcases hcase with ⟨hin, -⟩ | ⟨-, plus, hsign, hlook⟩
    · rw [hs] at hin
      cases hin
    · have hl := hlook p.chrnum p.contig plus p.gid
      simp only [and_self, if_true] at hl
      rcases strandSign_cases p plus hsign with ⟨rfl, ho⟩ | ⟨rfl, ho⟩
      · left
        refine ⟨ho, fun hnone => ?_⟩
        rw [hl, hnone, entryOf_plus _ _ _ hsign]
        rfl
      · right
        refine ⟨ho, fun hnone => ?_⟩
        rw [hl, hnone, entryOf_minus _ _ _ hsign]
        rfl
  · intro hacc hp hm
    rw [step1_eq_insert chrDist st line p hacc]
    exact insert1_bad_orient st p hp hm
  · intro hacc hs hp hm
    rw [step2_eq_insert chrDist st line p hacc]
    exact insert2_bad_orient st p hs hp hm

/-- Witness of the amended C12: pass 1 on `examplePrimary` (plus strand), pass 2
on `exampleAlternateOnly` (minus strand, entry created), and the two lines with
the orientation `?`, which are fatal in pass 1 and, from the empty `chr7genes`,
in pass 2. -/
theorem strand_coordinate_rule_witness :
    (accepted1 false examplePrimary =
          some ⟨"NT_1".toList, ['+'], "GENEA".toList, 6, 1000, 2000, 100⟩ ∧
        ReadDBFile_step false initState examplePrimary = some exampleState1 ∧
        lookupGene exampleState1.db 6 "NT_1".toList true 100 =
          some ⟨"GENEA".toList, 1000, 2000, GRCh⟩) ∧
      (accepted2 false exampleAlternateOnly =
          some ⟨"NT_2".toList, ['-'], "GENEB".toList, 6, 3000, 4000, 200⟩ ∧
        (mapGet exampleState1.chr7genes 200).isSome = false ∧
        ReadDBFileForChr7_step false exampleState1 exampleAlternateOnly =
          some exampleState2 ∧
        lookupGene exampleState1.db 6 "NT_2".toList false 200 = none ∧
        lookupGene exampleState2.db 6 "NT_2".toList false 200 =
          some ⟨"GENEB".toList, 4000, 3000, CHR7⟩) ∧
      ReadDBFile_step false initState examplePrimaryBadOrient = none ∧
      ReadDBFileForChr7_step false initState exampleBadOrient = none :=
  ⟨⟨by decide, by decide,
      ((strand_coordinate_rule false initState exampleState1 examplePrimary
          ⟨"NT_1".toList, ['+'], "GENEA".toList, 6, 1000, 2000, 100⟩).1
        (by decide) (by decide)).elim (fun _ => by decide) (fun h => absurd h.1 (by decide))⟩,
    ⟨by decide, by decide, by decide, by decide,
      ((strand_coordinate_rule false exampleState1 exampleState2 exampleAlternateOnly
          ⟨"NT_2".toList, ['-'], "GENEB".toList, 6, 3000, 4000, 200⟩).2.1
        (by decide) (by decide) (by decide)).elim (fun h => absurd h.1 (by decide))
        (fun h => h.2 (by decide))⟩,
    (strand_coordinate_rule false initState initState examplePrimaryBadOrient
        ⟨"NT_1".toList, ['?'], "GENEA".toList, 6, 1000, 2000, 100⟩).2.2.1
      (by decide) (by decide) (by decide),
    (strand_coordinate_rule false initState initState exampleBadOrient
        ⟨"NT_1".toList, ['?'], "GENEA".toList, 6, 1500, 2500, 100⟩).2.2.2
      (by decide) (by decide) (by decide) (by decide)⟩

/-! ### First record for the name, last record for the coordinates -/

theorem hitsEntry_self (p : DBFields) (plus : Bool) (h : p.orient = strandSign plus) :
    p.hitsEntry p.chrnum p.contig plus p.gid = true := by
  simp [DBFields.hitsEntry, hitsKey_self p plus h]

theorem hitsEntry_false_of_ne (p : DBFields) (plus : Bool) (hsign : p.orient = strandSign plus)
    (slot : Nat) (c : GoString) (pl : Bool) (gd : Nat)
    (hk : ¬ (slot = p.chrnum ∧ c = p.contig ∧ pl = plus ∧ gd = p.gid)) :
    p.hitsEntry slot c pl gd = false := by
  cases hh : p.hitsEntry slot c pl gd with
  | false => rfl
  | true =>
    exfalso
    simp only [DBFields.hitsEntry, Bool.and_eq_true, decide_eq_true_eq] at hh
    by_cases hkk : c = p.contig ∧ pl = plus ∧ gd = p.gid
    · exact hk ⟨hh.1.symm, hkk⟩
    · rw [hitsKey_false_of_ne p plus hsign c pl gd hkk] at hh
      cases hh.2

theorem find_reverse_none {α : Type} (q : α → Bool) (l : List α) :
    l.reverse.find? q = none ↔ l.find? q = none := by
  simp [List.find?_eq_none]

theorem firstAccepted1_snoc (chrDist : Bool) (pre : List GoString) (line : GoString)
    (slot : Nat) (c : GoString) (pl : Bool) (gd : Nat) :
    firstAccepted1 chrDist (pre ++ [line]) slot c pl gd =
      (firstAccepted1 chrDist pre slot c pl gd).or
        (match accepted1 chrDist line with
          | some p => if p.hitsEntry slot c pl gd = true then some p else none
          | none => none) := by
  unfold firstAccepted1
  rw [List.filterMap_append, List.find?_append]
  cases h : accepted1 chrDist line with
  | none => simp [h]
  | some p =>
    simp only [List.filterMap_cons, h, List.filterMap_nil, List.find?_cons, List.find?_nil]
    cases p.hitsEntry slot c pl gd <;> simp

theorem lastAccepted1_snoc (chrDist : Bool) (pre : List GoString) (line : GoString)
    (slot : Nat) (c : GoString) (pl : Bool) (gd : Nat) :
    lastAccepted1 chrDist (pre ++ [line]) slot c pl gd =
      (match accepted1 chrDist line with
        | some p => if p.hitsEntry slot c pl gd = true then some p else none
        | none => none).or (lastAccepted1 chrDist pre slot c pl gd) := by
  unfold lastAccepted1
  rw [List.filterMap_append, List.reverse_append, List.find?_append]
  cases h : accepted1 chrDist line with
  | none => simp [h]
  | some p =>
    simp only [List.filterMap_cons, h, List.filterMap_nil, List.reverse_cons,
      List.reverse_nil, List.nil_append, List.find?_cons, List.find?_nil]
    cases p.hitsEntry slot c pl gd <;> simp

theorem lastAccepted1_none_iff (chrDist : Bool) (pre : List GoString)
    (slot : Nat) (c : GoString) (pl : Bool) (gd : Nat) :
    lastAccepted1 chrDist pre slot c pl gd = none ↔
      firstAccepted1 chrDist pre slot c pl gd = none := by
  unfold lastAccepted1 firstAccepted1
  exact find_reverse_none _ _

theorem primaryExact_init (chrDist : Bool) : PrimaryExact chrDist [] initState where
  len := by simp [initState, emptyDB]
  look := by
    intro slot c pl gd
    simp [initState, lookupGene_emptyDB, firstAccepted1, lastAccepted1]
  valid := by intro line hl; simp at hl

theorem primaryExact_step (chrDist : Bool) (pre : List GoString) (st st1 : DBState)
    (line : GoString) (inv : PrimaryExact chrDist pre st)
    (h : ReadDBFile_step chrDist st line = some st1) :
    PrimaryExact chrDist (pre ++ [line]) st1 := by
  rcases accepted1_of_step chrDist st st1 line h with ⟨hacc, rfl⟩ | ⟨p, hacc, hins⟩
  · refine ⟨inv.len, ?_, ?_⟩
    · intro slot c pl gd
      rw [firstAccepted1_snoc, lastAccepted1_snoc, hacc]
      simpa using inv.look slot c pl gd
    · intro l hl q hq
      rcases List.mem_append.mp hl with hl | hl
      · exact inv.valid l hl q hq
      · simp at hl
        subst hl
        rw [hacc] at hq
        cases hq
  · obtain ⟨plus, hsign, hlt, hlen, -, hlook, -⟩ := ReadDBFile_insert_spec st st1 p hins
    refine ⟨hlen.trans inv.len, ?_, ?_⟩
    · intro slot c pl gd
      rw [hlook, firstAccepted1_snoc, lastAccepted1_snoc, hacc]
      simp only []
      by_cases hk : slot = p.chrnum ∧ c = p.contig ∧ pl = plus ∧ gd = p.gid
      · obtain ⟨hs, hc, hp, hg⟩ := hk
        subst hs hc hp hg
        have hold := inv.look p.chrnum p.contig pl p.gid
        rw [hitsEntry_self p pl hsign]
        simp only [and_self, if_true]
        cases hF : firstAccepted1 chrDist pre p.chrnum p.contig pl p.gid with
        | none =>
          have hL := (lastAccepted1_none_iff chrDist pre p.chrnum p.contig pl p.gid).mpr hF
          rw [hF, hL] at hold
          simp only [] at hold
          rw [hold, hL]
          rfl
        | some pf =>
          cases hL : lastAccepted1 chrDist pre p.chrnum p.contig pl p.gid with
          | none =>
            have := (lastAccepted1_none_iff chrDist pre p.chrnum p.contig pl p.gid).mp hL
            rw [hF] at this
            cases this
          | some pl1 =>
            rw [hF, hL] at hold
            simp only [] at hold
            rw [hold]
            simp only [entryOf_GENENAME, entryOf_MAP]
            rfl
      · rw [if_neg hk, hitsEntry_false_of_ne p plus hsign slot c pl gd hk]
        simpa using inv.look slot c pl gd
    · intro l hl q hq
      rcases List.mem_append.mp hl with hl | hl
      · exact inv.valid l hl q hq
      · simp at hl
        subst hl
        rw [hacc] at hq
        cases hq
        exact ⟨inv.len ▸ hlt, plus, hsign⟩

theorem primaryExact_run (chrDist : Bool) (rest : List GoString) :
    ∀ (pre : List GoString) (st st1 : DBState), PrimaryExact chrDist pre st →
      ReadDBFile chrDist st rest = some st1 → PrimaryExact chrDist (pre ++ rest) st1 := by
  induction rest with
  | nil =>
    intro pre st st1 inv h
    simp only [ReadDBFile, Option.some.injEq] at h
    subst h
    simpa using inv
  | cons line rest ih =>
    intro pre st st1 inv h
    rw [ReadDBFile] at h
    cases hs : ReadDBFile_step chrDist st line with
    | none => simp [hs] at h
    | some st2 =>
      simp only [hs] at h
      have := ih (pre ++ [line]) st2 st1 (primaryExact_step chrDist pre st st2 line inv hs) h
      simpa using this

theorem firstAccepted1_isSome (chrDist : Bool) (recs : List GoString) (line : GoString)
    (hline : line ∈ recs) (p : DBFields) (hacc : accepted1 chrDist line = some p)
    (slot : Nat) (c : GoString) (pl : Bool) (gd : Nat)
    (hhit : p.hitsEntry slot c pl gd = true) :
    ∃ pf pl1 : DBFields, firstAccepted1 chrDist recs slot c pl gd = some pf ∧
      lastAccepted1 chrDist recs slot c pl gd = some pl1 := by
  have hmem : p ∈ recs.filterMap (accepted1 chrDist) :=
    List.mem_filterMap.mpr ⟨line, hline, hacc⟩
  cases hF : firstAccepted1 chrDist recs slot c pl gd with
  | none =>
    exfalso
    unfold firstAccepted1 at hF
    rw [List.find?_eq_none] at hF
    exact hF p hmem hhit
  | some pf =>
    cases hL : lastAccepted1 chrDist recs slot c pl gd with
    | none =>
      have := (lastAccepted1_none_iff chrDist recs slot c pl gd).mp hL
      rw [hF] at this
      cases this
    | some pl1 => exact ⟨pf, pl1, rfl, rfl⟩

/-- C17: after pass 1 from the empty index, every entry
`(slot, contig, strand, gene id)` addressed by at least one accepted record
exists, has the gene name of the first accepted record that addresses it, the
tag `GRCh37`, and the coordinates assigned by the strand rule from the last
accepted record that addresses it. -/
theorem pass1_first_name_last_coords (chrDist : Bool) (recs : List GoString) (st1 : DBState)
    (h1 : ReadDBFile chrDist initState recs = some st1)
    (slot : Nat) (contig : GoString) (plus : Bool) (gid : Nat)
    (hhit : ∃ line ∈ recs, ∃ p : DBFields,
      accepted1 chrDist line = some p ∧ p.hitsEntry slot contig plus gid = true) :
    ∃ (pf pl1 : DBFields) (info : GENEINFO),
      firstAccepted1 chrDist recs slot contig plus gid = some pf ∧
        lastAccepted1 chrDist recs slot contig plus gid = some pl1 ∧
        lookupGene st1.db slot contig plus gid = some info ∧
        info.GENENAME = pf.gname ∧ info.MAP = GRCh ∧
        info.P5 = (if plus = true then pl1.ctg1 else pl1.ctg2) ∧
        info.P3 = (if plus = true then pl1.ctg2 else pl1.ctg1) := by
  have inv := primaryExact_run chrDist recs [] initState st1 (primaryExact_init chrDist) h1
  simp only [List.nil_append] at inv
  obtain ⟨line, hline, p, hacc, hp⟩ := hhit
  obtain ⟨pf, pl1, hF, hL⟩ :=
    firstAccepted1_isSome chrDist recs line hline p hacc slot contig plus gid hp
  have hlook := inv.look slot contig plus gid
  rw [hF, hL] at hlook
  simp only [] at hlook
  have hlast : pl1.hitsEntry slot contig plus gid = true := by
    unfold lastAccepted1 at hL
    have hfound := List.find?_some hL
    exact hfound
  simp only [DBFields.hitsEntry, DBFields.hitsKey, Bool.and_eq_true, decide_eq_true_eq] at hlast
  have hco := entryOf_coords pf.gname GRCh pl1 plus hlast.2.1.2
  exact ⟨pf, pl1, _, hF, hL, hlook, entryOf_GENENAME _ _ _, entryOf_MAP _ _ _, hco.1, hco.2⟩

/-- Witness of C17: two accepted records for gene 100 on contig `NT_1`, plus
strand; the entry has the name `GENEA` of the first and the coordinates 1100,
2100 of the second. -/
theorem pass1_first_name_last_coords_witness :
    ReadDBFile false initState [examplePrimary, examplePrimaryAgain] =
        some exampleStateAgain ∧
      accepted1 false examplePrimaryAgain =
        some ⟨"NT_1".toList, ['+'], "GENEA2".toList, 6, 1100, 2100, 100⟩ ∧
      lookupGene exampleStateAgain.db 6 "NT_1".toList true 100 =
        some ⟨"GENEA".toList, 1100, 2100, GRCh⟩ ∧
      ∃ (pf pl1 : DBFields) (info : GENEINFO),
        firstAccepted1 false [examplePrimary, examplePrimaryAgain] 6 "NT_1".toList true 100 =
            some pf ∧
          lastAccepted1 false [examplePrimary, examplePrimaryAgain] 6 "NT_1".toList true 100 =
            some pl1 ∧
          lookupGene exampleStateAgain.db 6 "NT_1".toList true 100 = some info ∧
          info.GENENAME = pf.gname ∧ info.MAP = GRCh ∧
          info.P5 = (if true = true then pl1.ctg1 else pl1.ctg2) ∧
          info.P3 = (if true = true then pl1.ctg2 else pl1.ctg1) :=
  ⟨by decide, by decide, by decide,
    pass1_first_name_last_coords false [examplePrimary, examplePrimaryAgain]
      exampleStateAgain (by decide) 6 "NT_1".toList true 100
      ⟨examplePrimaryAgain, by decide,
        ⟨"NT_1".toList, ['+'], "GENEA2".toList, 6, 1100, 2100, 100⟩, by decide, by decide⟩⟩

/-! ### Keys of association lists -/

theorem keysOf_mapSet_of_some {K V : Type} [DecidableEq K] (m : List (K × V)) (k : K)
    (v v0 : V) (h : mapGet m k = some v0) : keysOf (mapSet m k v) = keysOf m := by
  induction m with
  | nil => simp [mapGet] at h
  | cons e rest ih =>
    obtain ⟨a, b⟩ := e
    by_cases hk : a = k
    · subst hk
      simp [mapSet, keysOf]
    · simp only [mapGet, hk, if_false] at h
      have := ih h
      simp only [keysOf] at this
      simp [mapSet, hk, keysOf, this]

theorem mem_keysOf_mapSet {K V : Type} [DecidableEq K] (m : List (K × V)) (k x : K) (v : V)
    (h : x ∈ keysOf (mapSet m k v)) : x ∈ keysOf m ∨ x = k := by
  induction m with
  | nil =>
    simp [mapSet, keysOf] at h
    exact Or.inr h
  | cons e rest ih =>
    obtain ⟨a, b⟩ := e
    by_cases hk : a = k
    · subst hk
      simp only [mapSet, if_true, keysOf, List.map_cons, List.mem_cons] at h
      simp only [keysOf, List.map_cons, List.mem_cons]
      rcases h with h | h
      · exact Or.inl (Or.inl h)
      · exact Or.inl (Or.inr h)
    · simp only [mapSet, hk, if_false, keysOf, List.map_cons, List.mem_cons] at h
      simp only [keysOf, List.map_cons, List.mem_cons]
      rcases h with h | h
      · exact Or.inl (Or.inl h)
      · rcases ih h with h1 | h1
        · exact Or.inl (Or.inr h1)
        · exact Or.inr h1

theorem nodup_keysOf_mapSet {K V : Type} [DecidableEq K] (m : List (K × V)) (k : K) (v : V)
    (h : (keysOf m).Nodup) : (keysOf (mapSet m k v)).Nodup := by
  induction m with
  | nil => simp [mapSet, keysOf]
  | cons e rest ih =>
    obtain ⟨a, b⟩ := e
    simp only [keysOf, List.map_cons, List.nodup_cons] at h
    by_cases hk : a = k
    · subst hk
      simp only [mapSet, if_true, keysOf, List.map_cons, List.nodup_cons]
      exact h
    · simp only [mapSet, hk, if_false, keysOf, List.map_cons, List.nodup_cons]
      refine ⟨?_, ih h.2⟩
      intro hmem
      rcases mem_keysOf_mapSet rest k a v hmem with h1 | h1
      · exact h.1 h1
      · exact hk h1

theorem mem_mapSet {K V : Type} [DecidableEq K] (m : List (K × V)) (k : K) (v : V)
    (e : K × V) (h : e ∈ mapSet m k v) : e ∈ m ∨ e = (k, v) := by
  induction m with
  | nil =>
    simp [mapSet] at h
    exact Or.inr h
  | cons e1 rest ih =>
    obtain ⟨a, b⟩ := e1
    by_cases hk : a = k
    · subst hk
      simp only [mapSet, if_true, List.mem_cons] at h
      rcases h with h | h
      · exact Or.inr h
      · exact Or.inl (List.mem_cons_of_mem _ h)
    · simp only [mapSet, hk, if_false, List.mem_cons] at h
      rcases h with h | h
      · exact Or.inl (h ▸ List.mem_cons_self _ _)
      · rcases ih h with h1 | h1
        · exact Or.inl (List.mem_cons_of_mem _ h1)
        · exact Or.inr h1

theorem mapGet_some_mem {K V : Type} [DecidableEq K] (m : List (K × V)) (k : K) (v : V)
    (h : mapGet m k = some v) : (k, v) ∈ m := by
  induction m with
  | nil => simp [mapGet] at h
  | cons e rest ih =>
    obtain ⟨a, b⟩ := e
    by_cases hk : a = k
    · subst hk
      simp only [mapGet, if_true, Option.some.injEq] at h
      subst h
      exact List.mem_cons_self _ _
    · simp only [mapGet, hk, if_false] at h
      exact List.mem_cons_of_mem _ (ih h)

theorem mapSet_same {K V : Type} [DecidableEq K] (m : List (K × V)) (k : K) (v : V)
    (h : mapGet m k = some v) : mapSet m k v = m := by
  induction m with
  | nil => simp [mapGet] at h
  | cons e rest ih =>
    obtain ⟨a, b⟩ := e
    by_cases hk : a = k
    · subst hk
      simp only [mapGet, if_true, Option.some.injEq] at h
      subst h
      simp [mapSet]
    · simp only [mapGet, hk, if_false] at h
      simp [mapSet, hk, ih h]

theorem set_same {α : Type} (l : List α) (i : Nat) (a : α) (h : l[i]? = some a) :
    l.set i a = l := by
  apply List.ext_getElem?
  intro n
  by_cases hn : i = n
  · subst hn
    have hlt : i < l.length := by
      rcases Nat.lt_or_ge i l.length with h0 | h0
      · exact h0
      · rw [List.getElem?_eq_none h0] at h; cases h
    rw [List.getElem?_set_self hlt, h]
  · rw [List.getElem?_set_ne hn]

theorem assoc_ext {K V : Type} [DecidableEq K] :
    ∀ (m m1 : List (K × V)), keysOf m = keysOf m1 → (keysOf m1).Nodup →
      (∀ k : K, mapGet m k = mapGet m1 k) → m = m1 := by
  intro m
  induction m with
  | nil =>
    intro m1 hk _ _
    cases m1 with
    | nil => rfl
    | cons e rest => simp [keysOf] at hk
  | cons e rest ih =>
    intro m1 hk hnd hget
    cases m1 with
    | nil => simp [keysOf] at hk
    | cons e1 rest1 =>
      obtain ⟨a, b⟩ := e
      obtain ⟨a1, b1⟩ := e1
      simp only [keysOf, List.map_cons, List.cons.injEq] at hk
      obtain ⟨ha, hrest⟩ := hk
      subst ha
      simp only [keysOf, List.map_cons, List.nodup_cons] at hnd
      have hb : b = b1 := by
        have := hget a
        simpa [mapGet] using this
      subst hb
      congr 1
      apply ih rest1 hrest hnd.2
      intro k
      have := hget k
      by_cases hka : a = k
      · subst hka
        have h1 : mapGet rest a = none := by
          cases hh : mapGet rest a with
          | none => rfl
          | some v =>
            exfalso
            have hm := mapGet_some_mem rest a v hh
            apply hnd.1
            have : a ∈ keysOf rest := List.mem_map.mpr ⟨(a, v), hm, rfl⟩
            simpa [keysOf, hrest] using this
        have h2 : mapGet rest1 a = none := by
          cases hh : mapGet rest1 a with
          | none => rfl
          | some v =>
            exfalso
            have hm := mapGet_some_mem rest1 a v hh
            apply hnd.1
            exact List.mem_map.mpr ⟨(a, v), hm, rfl⟩
        rw [h1, h2]
      · simpa [mapGet, hka] using this

/-! ### No key twice -/

theorem wellKeyed_emptyDB : WellKeyed emptyDB := by
  intro ctgs hm
  simp only [emptyDB] at hm
  rw [List.mem_replicate] at hm
  rw [hm.2]
  simp [keysOf]

theorem orient_getD_nodup (db : SEQGENEDB) (chrnum : Nat) (ctgs : CONTIG) (contig : GoString)
    (hw : WellKeyed db) (hc : db[chrnum]? = some ctgs) :
    (keysOf ((mapGet ctgs contig).getD ⟨[], []⟩).PLUS).Nodup ∧
      (keysOf ((mapGet ctgs contig).getD ⟨[], []⟩).MINUS).Nodup := by
  cases h : mapGet ctgs contig with
  | none => simp [keysOf]
  | some o =>
    simp only [Option.getD_some]
    exact (hw ctgs (List.getElem?_mem hc)).2 (contig, o) (mapGet_some_mem ctgs contig o h)

theorem wellKeyed_set_mapSet (db : SEQGENEDB) (chrnum : Nat) (ctgs : CONTIG)
    (contig : GoString) (o1 : ORIENT) (hw : WellKeyed db) (hc : db[chrnum]? = some ctgs)
    (ho : (keysOf o1.PLUS).Nodup ∧ (keysOf o1.MINUS).Nodup) :
    WellKeyed (db.set chrnum (mapSet ctgs contig o1)) := by
  intro x hx
  rcases List.mem_or_eq_of_mem_set hx with h | h
  · exact hw x h
  · subst h
    have hctgs := hw ctgs (List.getElem?_mem hc)
    refine ⟨nodup_keysOf_mapSet ctgs contig o1 hctgs.1, ?_⟩
    intro e he
    rcases mem_mapSet ctgs contig o1 e he with h1 | h1
    · exact hctgs.2 e h1
    · subst h1
      exact ho

theorem wellKeyed_putGene (db : SEQGENEDB) (chrnum : Nat) (ctgs : CONTIG) (contig : GoString)
    (plus : Bool) (gid : Nat) (g : GENEINFO) (hw : WellKeyed db)
    (hc : db[chrnum]? = some ctgs) :
    WellKeyed
      (putGene db chrnum ctgs contig ((mapGet ctgs contig).getD ⟨[], []⟩) plus gid g) := by
  have ho := orient_getD_nodup db chrnum ctgs contig hw hc
  unfold putGene
  apply wellKeyed_set_mapSet db chrnum ctgs contig _ hw hc
  cases plus
  · exact ⟨ho.1, nodup_keysOf_mapSet _ gid g ho.2⟩
  · exact ⟨nodup_keysOf_mapSet _ gid g ho.1, ho.2⟩

/-- The form of the index after one accepted record in pass 1. -/
theorem ReadDBFile_insert_form (st st1 : DBState) (p : DBFields)
    (h : ReadDBFile_insert st p = some st1) :
    ∃ (ctgs : CONTIG) (plus : Bool) (g : GENEINFO), st.db[p.chrnum]? = some ctgs ∧
      p.orient = strandSign plus ∧
      st1.db =
        putGene st.db p.chrnum ctgs p.contig ((mapGet ctgs p.contig).getD ⟨[], []⟩) plus
          p.gid g := by
  unfold ReadDBFile_insert at h
  cases hc : st.db[p.chrnum]? with
  | none => simp [hc] at h
  | some ctgs =>
    simp only [hc] at h
    by_cases hp : p.orient = ['+']
    · rw [if_pos hp] at h
      cases hg : mapGet ((mapGet ctgs p.contig).getD ⟨[], []⟩).PLUS p.gid with
      | none =>
        simp only [hg, Option.some.injEq] at h
        subst h
        exact ⟨ctgs, true, _, rfl, by simpa [strandSign] using hp, rfl⟩
      | some g =>
        simp only [hg, Option.some.injEq] at h
        subst h
        exact ⟨ctgs, true, _, rfl, by simpa [strandSign] using hp, rfl⟩
    · by_cases hm : p.orient = ['-']
      · rw [if_neg hp, if_pos hm] at h
        cases hg : mapGet ((mapGet ctgs p.contig).getD ⟨[], []⟩).MINUS p.gid with
        | none =>
          simp only [hg, Option.some.injEq] at h
          subst h
          exact ⟨ctgs, false, _, rfl, by simpa [strandSign] using hm, rfl⟩
        | some g =>
          simp only [hg, Option.some.injEq] at h
          subst h
          exact ⟨ctgs, false, _, rfl, by simpa [strandSign] using hm, rfl⟩
      · simp [hp, hm] at h

/-- The form of the index after one accepted record in pass 2. -/
theorem ReadDBFileForChr7_insert_form (st st1 : DBState) (p : DBFields)
    (h : ReadDBFileForChr7_insert st p = some st1) :
    st1 = st ∨
      ∃ ctgs : CONTIG, st.db[p.chrnum]? = some ctgs ∧
        ((∃ (plus : Bool) (g : GENEINFO),
            st1.db =
              putGene st.db p.chrnum ctgs p.contig ((mapGet ctgs p.contig).getD ⟨[], []⟩)
                plus p.gid g) ∨
          st1.db =
            st.db.set p.chrnum
              (mapSet ctgs p.contig ((mapGet ctgs p.contig).getD ⟨[], []⟩))) := by
  unfold ReadDBFileForChr7_insert at h
  by_cases hseen : (mapGet st.chr7genes p.gid).isSome = true
  · rw [if_pos hseen] at h
    simp only [Option.some.injEq] at h
    exact Or.inl h.symm
  · rw [if_neg hseen] at h
    right
    cases hc : st.db[p.chrnum]? with
    | none => simp [hc] at h
    | some ctgs =>
      simp only [hc] at h
      refine ⟨ctgs, rfl, ?_⟩
      by_cases hp : p.orient = ['+']
      · rw [if_pos hp] at h
        cases hg : mapGet ((mapGet ctgs p.contig).getD ⟨[], []⟩).PLUS p.gid with
        | none =>
          simp only [hg, Option.some.injEq] at h
          subst h
          exact Or.inl ⟨true, _, rfl⟩
        | some g =>
          simp only [hg, Option.some.injEq] at h
          subst h
          exact Or.inr rfl
      · by_cases hm : p.orient = ['-']
        · rw [if_neg hp, if_pos hm] at h
          cases hg : mapGet ((mapGet ctgs p.contig).getD ⟨[], []⟩).MINUS p.gid with
          | none =>
            simp only [hg, Option.some.injEq] at h
            subst h
            exact Or.inl ⟨false, _, rfl⟩
          | some g =>
            simp only [hg, Option.some.injEq] at h
            subst h
            exact Or.inr rfl
        · simp [hp, hm] at h

theorem wellKeyed_run1 (chrDist : Bool) (rest : List GoString) :
    ∀ (st st1 : DBState), WellKeyed st.db → ReadDBFile chrDist st rest = some st1 →
      WellKeyed st1.db := by
  induction rest with
  | nil =>
    intro st st1 hw h
    simp only [ReadDBFile, Option.some.injEq] at h
    subst h
    exact hw
  | cons line rest ih =>
    intro st st1 hw h
    rw [ReadDBFile] at h
    cases hs : ReadDBFile_step chrDist st line with
    | none => simp [hs] at h
    | some st2 =>
      simp only [hs] at h
      refine ih st2 st1 ?_ h
      rcases accepted1_of_step chrDist st st2 line hs with ⟨-, rfl⟩ | ⟨p, -, hins⟩
      · exact hw
      · obtain ⟨ctgs, plus, g, hc, -, hdb⟩ := ReadDBFile_insert_form st st2 p hins
        rw [hdb]
        exact wellKeyed_putGene st.db p.chrnum ctgs p.contig plus p.gid g hw hc

theorem wellKeyed_run2 (chrDist : Bool) (rest : List GoString) :
    ∀ (st st1 : DBState), WellKeyed st.db → ReadDBFileForChr7 chrDist st rest = some st1 →
      WellKeyed st1.db := by
  induction rest with
  | nil =>
    intro st st1 hw h
    simp only [ReadDBFileForChr7, Option.some.injEq] at h
    subst h
    exact hw
  | cons line rest ih =>
    intro st st1 hw h
    rw [ReadDBFileForChr7] at h
    cases hs : ReadDBFileForChr7_step chrDist st line with
    | none => simp [hs] at h
    | some st2 =>
      simp only [hs] at h
      refine ih st2 st1 ?_ h
      rcases accepted2_of_step chrDist st st2 line hs with ⟨-, rfl⟩ | ⟨p, -, hins⟩
      · exact hw
      · rcases ReadDBFileForChr7_insert_form st st2 p hins with rfl | ⟨ctgs, hc, hform⟩
        · exact hw
        · rcases hform with ⟨plus, g, hdb⟩ | hdb
          · rw [hdb]
            exact wellKeyed_putGene st.db p.chrnum ctgs p.contig plus p.gid g hw hc
          · rw [hdb]
            exact wellKeyed_set_mapSet st.db p.chrnum ctgs p.contig _ hw hc
              (orient_getD_nodup st.db p.chrnum ctgs p.contig hw hc)

/-! ### The keys of the index and its entries determine it -/

theorem contigShape_mapSet (ctgs : CONTIG) (c : GoString) (o o1 : ORIENT)
    (h : mapGet ctgs c = some o) (ho : orientShape o1 = orientShape o) :
    contigShape (mapSet ctgs c o1) = contigShape ctgs := by
  induction ctgs with
  | nil => simp [mapGet] at h
  | cons e rest ih =>
    obtain ⟨a, b⟩ := e
    by_cases hk : a = c
    · subst hk
      simp only [mapGet, if_true, Option.some.injEq] at h
      subst h
      simp [mapSet, contigShape, ho]
    · simp only [mapGet, hk, if_false] at h
      have := ih h
      simp only [contigShape] at this
      simp [mapSet, hk, contigShape, this]

theorem dbShape_set_same (db : SEQGENEDB) (i : Nat) (ctgs x : CONTIG)
    (hc : db[i]? = some ctgs) (hx : contigShape x = contigShape ctgs) :
    dbShape (db.set i x) = dbShape db := by
  unfold dbShape
  rw [List.map_set, hx]
  apply set_same
  rw [List.getElem?_map, hc]
  rfl

theorem lookupGene_some (db : SEQGENEDB) (slot : Nat) (ctgs : CONTIG) (c : GoString)
    (pl : Bool) (gd : Nat) (g : GENEINFO) (hc : db[slot]? = some ctgs)
    (h : lookupGene db slot c pl gd = some g) :
    ∃ o : ORIENT, mapGet ctgs c = some o ∧
      mapGet (if pl = true then o.PLUS else o.MINUS) gd = some g := by
  unfold lookupGene at h
  rw [hc] at h
  simp only [] at h
  cases ho : mapGet ctgs c with
  | none => simp [ho] at h
  | some o =>
    simp only [ho] at h
    exact ⟨o, rfl, h⟩

theorem dbShape_putGene_present (db : SEQGENEDB) (chrnum : Nat) (ctgs : CONTIG)
    (contig : GoString) (plus : Bool) (gid : Nat) (g g0 : GENEINFO)
    (hc : db[chrnum]? = some ctgs)
    (hg : lookupGene db chrnum contig plus gid = some g0) :
    dbShape (putGene db chrnum ctgs contig ((mapGet ctgs contig).getD ⟨[], []⟩) plus gid g) =
      dbShape db := by
  obtain ⟨o, ho, hgo⟩ := lookupGene_some db chrnum ctgs contig plus gid g0 hc hg
  unfold putGene
  apply dbShape_set_same db chrnum ctgs _ hc
  rw [ho]
  simp only [Option.getD_some]
  apply contigShape_mapSet ctgs contig o _ ho
  cases plus
  · simp only [Bool.false_eq_true, if_false] at hgo ⊢
    simp [orientShape, keysOf_mapSet_of_some o.MINUS gid g g0 hgo]
  · simp only [if_true] at hgo ⊢
    simp [orientShape, keysOf_mapSet_of_some o.PLUS gid g g0 hgo]

theorem contigShape_lookup (ctgs : CONTIG) :
    ∀ (ctgs1 : CONTIG), contigShape ctgs = contigShape ctgs1 → ∀ c : GoString,
      (mapGet ctgs c).map orientShape = (mapGet ctgs1 c).map orientShape := by
  induction ctgs with
  | nil =>
    intro ctgs1 h c
    cases ctgs1 with
    | nil => rfl
    | cons e rest => simp [contigShape] at h
  | cons e rest ih =>
    intro ctgs1 h c
    cases ctgs1 with
    | nil => simp [contigShape] at h
    | cons e1 rest1 =>
      obtain ⟨a, b⟩ := e
      obtain ⟨a1, b1⟩ := e1
      simp only [contigShape, List.map_cons, List.cons.injEq, Prod.mk.injEq] at h
      obtain ⟨⟨ha, hb⟩, hrest⟩ := h
      subst ha
      by_cases hk : a = c
      · simp [mapGet, hk, hb]
      · simp only [mapGet, hk, if_false]
        exact ih rest1 hrest c

theorem keysOf_contigShape (ctgs : CONTIG) : keysOf (contigShape ctgs) = keysOf ctgs := by
  simp [keysOf, contigShape]

theorem db_ext (t u : SEQGENEDB) (hshape : dbShape t = dbShape u) (hw : WellKeyed u)
    (hlook : ∀ (slot : Nat) (c : GoString) (pl : Bool) (gd : Nat),
      lookupGene t slot c pl gd = lookupGene u slot c pl gd) : t = u := by
  apply List.ext_getElem?
  intro i
  have hi : (t[i]?).map contigShape = (u[i]?).map contigShape := by
    have := congrArg (fun l => l[i]?) hshape
    simpa [dbShape, List.getElem?_map] using this
  cases ht : t[i]? with
  | none =>
    cases hu : u[i]? with
    | none => rfl
    | some ctgs1 => rw [ht, hu] at hi; cases hi
  | some ctgs =>
    cases hu : u[i]? with
    | none => rw [ht, hu] at hi; cases hi
    | some ctgs1 =>
      rw [ht, hu] at hi
      simp only [Option.map_some', Option.some.injEq] at hi
      congr 1
      have hwu := hw ctgs1 (List.getElem?_mem hu)
      apply assoc_ext ctgs ctgs1
      · rw [← keysOf_contigShape ctgs, ← keysOf_contigShape ctgs1, hi]
      · exact hwu.1
      · intro c
        have hsh := contigShape_lookup ctgs ctgs1 hi c
        cases ho : mapGet ctgs c with
        | none =>
          cases ho1 : mapGet ctgs1 c with
          | none => rfl
          | some o1 => rw [ho, ho1] at hsh; cases hsh
        | some o =>
          cases ho1 : mapGet ctgs1 c with
          | none => rw [ho, ho1] at hsh; cases hsh
          | some o1 =>
            rw [ho, ho1] at hsh
            simp only [Option.map_some', Option.some.injEq, orientShape, Prod.mk.injEq] at hsh
            have hnd := hwu.2 (c, o1) (mapGet_some_mem ctgs1 c o1 ho1)
            have hP : o.PLUS = o1.PLUS := by
              apply assoc_ext o.PLUS o1.PLUS hsh.1 hnd.1
              intro gd
              have := hlook i c true gd
              simpa [lookupGene, ht, hu, ho, ho1] using this
            have hM : o.MINUS = o1.MINUS := by
              apply assoc_ext o.MINUS o1.MINUS hsh.2 hnd.2
              intro gd
              have := hlook i c false gd
              simpa [lookupGene, ht, hu, ho, ho1] using this
            obtain ⟨P, M⟩ := o
            obtain ⟨P1, M1⟩ := o1
            simp only at hP hM
            rw [hP, hM]

/-! ### A second ingestion -/

theorem insert1_succeeds (st : DBState) (p : DBFields) (plus : Bool)
    (hlt : p.chrnum < st.db.length) (hsign : p.orient = strandSign plus) :
    ∃ st1 : DBState, ReadDBFile_insert st p = some st1 := by
  unfold ReadDBFile_insert
  rw [List.getElem?_eq_getElem hlt]
  simp only []
  rcases strandSign_cases p plus hsign with ⟨-, ho⟩ | ⟨-, ho⟩
  · rw [if_pos ho]
    cases mapGet ((mapGet st.db[p.chrnum] p.contig).getD ⟨[], []⟩).PLUS p.gid <;>
      exact ⟨_, rfl⟩
  · have hne : ¬ p.orient = ['+'] := by rw [ho]; decide
    rw [if_neg hne, if_pos ho]
    cases mapGet ((mapGet st.db[p.chrnum] p.contig).getD ⟨[], []⟩).MINUS p.gid <;>
      exact ⟨_, rfl⟩

theorem step1_skip (chrDist : Bool) (s s1 : DBState) (line : GoString)
    (h : ReadDBFile_step chrDist s line = some s1) (hacc : accepted1 chrDist line = none)
    (t : DBState) : ReadDBFile_step chrDist t line = some t := by
  unfold ReadDBFile_step at h ⊢
  unfold accepted1 at hacc
  cases hf : ReadDBFile_filter line with
  | skip => rfl
  | fatal => simp [hf] at h
  | accept fields =>
    simp only [hf] at h hacc
    simp [hacc] at h

theorem step2_skip (chrDist : Bool) (s s1 : DBState) (line : GoString)
    (h : ReadDBFileForChr7_step chrDist s line = some s1)
    (hacc : accepted2 chrDist line = none) (t : DBState) :
    ReadDBFileForChr7_step chrDist t line = some t := by
  unfold ReadDBFileForChr7_step at h ⊢
  unfold accepted2 at hacc
  cases hf : ReadDBFileForChr7_filter line with
  | skip => rfl
  | fatal => simp [hf] at h
  | accept fields =>
    simp only [hf] at h hacc
    simp [hacc] at h

theorem run1_line_ok (chrDist : Bool) (rest : List GoString) :
    ∀ (st st1 : DBState), ReadDBFile chrDist st rest = some st1 →
      ∀ line ∈ rest, ∃ s s1 : DBState, ReadDBFile_step chrDist s line = some s1 := by
  induction rest with
  | nil => intro st st1 _ line hl; simp at hl
  | cons l rest ih =>
    intro st st1 h line hl
    rw [ReadDBFile] at h
    cases hs : ReadDBFile_step chrDist st l with
    | none => simp [hs] at h
    | some st2 =>
      simp only [hs] at h
      rcases List.mem_cons.mp hl with rfl | hl
      · exact ⟨st, st2, hs⟩
      · exact ih st2 st1 h line hl

theorem run2_line_ok (chrDist : Bool) (rest : List GoString) :
    ∀ (st st1 : DBState), ReadDBFileForChr7 chrDist st rest = some st1 →
      ∀ line ∈ rest, ∃ s s1 : DBState, ReadDBFileForChr7_step chrDist s line = some s1 := by
  induction rest with
  | nil => intro st st1 _ line hl; simp at hl
  | cons l rest ih =>
    intro st st1 h line hl
    rw [ReadDBFileForChr7] at h
    cases hs : ReadDBFileForChr7_step chrDist st l with
    | none => simp [hs] at h
    | some st2 =>
      simp only [hs] at h
      rcases List.mem_cons.mp hl with rfl | hl
      · exact ⟨st, st2, hs⟩
      · exact ih st2 st1 h line hl

theorem rerun_step (chrDist : Bool) (st2 : DBState) (pre : List GoString) (t : DBState)
    (line : GoString) (inv : RerunInv chrDist st2 pre t)
    (hok : ∃ s s1 : DBState, ReadDBFile_step chrDist s line = some s1)
    (hline : ∀ p : DBFields, accepted1 chrDist line = some p →
      p.chrnum < st2.db.length ∧ ∃ plus : Bool, p.orient = strandSign plus ∧
        (lookupGene st2.db p.chrnum p.contig plus p.gid).isSome = true) :
    ∃ t1 : DBState, ReadDBFile_step chrDist t line = some t1 ∧
      RerunInv chrDist st2 (pre ++ [line]) t1 := by
  obtain ⟨s, s1, hs⟩ := hok
  cases hacc : accepted1 chrDist line with
  | none =>
    refine ⟨t, step1_skip chrDist s s1 line hs hacc t, inv.seen, inv.shape, ?_⟩
    intro slot c pl gd
    rw [lastAccepted1_snoc, hacc]
    simpa using inv.look slot c pl gd
  | some p =>
    obtain ⟨hlt2, plus, hsign, hsome2⟩ := hline p hacc
    have hlen : t.db.length = st2.db.length := by
      have := congrArg List.length inv.shape
      simpa [dbShape] using this
    obtain ⟨t1, hins⟩ := insert1_succeeds t p plus (hlen ▸ hlt2) hsign
    obtain ⟨plus1, hsign1, -, -, -, hlook, hseen⟩ := ReadDBFile_insert_spec t t1 p hins
    have hpl : plus1 = plus := strandSign_injective _ _ (hsign1.symm.trans hsign)
    subst hpl
    obtain ⟨g2, hg2⟩ := Option.isSome_iff_exists.mp hsome2
    have hold := inv.look p.chrnum p.contig plus1 p.gid
    rw [hg2] at hold
    simp only [Option.map_some'] at hold
    refine ⟨t1, (step1_eq_insert chrDist t line p hacc).trans hins, ?_, ?_, ?_⟩
    · rw [hseen, hold]
      simp [inv.seen]
    · obtain ⟨ctgs, plus2, g, hc, hsign2, hdb⟩ := ReadDBFile_insert_form t t1 p hins
      have hpl : plus2 = plus1 := strandSign_injective _ _ (hsign2.symm.trans hsign)
      subst hpl
      rw [hdb, dbShape_putGene_present t.db p.chrnum ctgs p.contig plus2 p.gid g _ hc hold]
      exact inv.shape
    · intro slot c pl gd
      rw [hlook, lastAccepted1_snoc, hacc]
      simp only []
      by_cases hk : slot = p.chrnum ∧ c = p.contig ∧ pl = plus1 ∧ gd = p.gid
      · obtain ⟨h1, h2, h3, h4⟩ := hk
        subst h1 h2 h3 h4
        rw [hitsEntry_self p pl hsign, hold, hg2]
        simp only [and_self, if_true, Option.map_some', Option.or_some]
        cases lastAccepted1 chrDist pre p.chrnum p.contig pl p.gid <;>
          simp [entryOf_GENENAME, entryOf_MAP]
      · rw [if_neg hk, hitsEntry_false_of_ne p plus1 hsign slot c pl gd hk]
        simpa using inv.look slot c pl gd

theorem rerun_run (chrDist : Bool) (st2 : DBState) (rest : List GoString) :
    (∀ line ∈ rest, (∃ s s1 : DBState, ReadDBFile_step chrDist s line = some s1) ∧
      ∀ p : DBFields, accepted1 chrDist line = some p →
        p.chrnum < st2.db.length ∧ ∃ plus : Bool, p.orient = strandSign plus ∧
          (lookupGene st2.db p.chrnum p.contig plus p.gid).isSome = true) →
    ∀ (pre : List GoString) (t : DBState), RerunInv chrDist st2 pre t →
      ∃ t1 : DBState, ReadDBFile chrDist t rest = some t1 ∧
        RerunInv chrDist st2 (pre ++ rest) t1 := by
  induction rest with
  | nil =>
    intro _ pre t inv
    exact ⟨t, rfl, by simpa using inv⟩
  | cons line rest ih =>
    intro hall pre t inv
    have hl := hall line (List.mem_cons_self _ _)
    obtain ⟨t1, hstep, inv1⟩ := rerun_step chrDist st2 pre t line inv hl.1 hl.2
    obtain ⟨t2, hrun, inv2⟩ :=
      ih (fun l hm => hall l (List.mem_cons_of_mem _ hm)) (pre ++ [line]) t1 inv1
    refine ⟨t2, ?_, by simpa using inv2⟩
    rw [ReadDBFile, hstep]
    exact hrun

theorem rerun2_step (chrDist : Bool) (st : DBState) (line : GoString)
    (hok : ∃ s s1 : DBState, ReadDBFileForChr7_step chrDist s line = some s1)
    (hline : ∀ p : DBFields, accepted2 chrDist line = some p →
      (mapGet st.chr7genes p.gid).isSome = true ∨
        (p.chrnum < st.db.length ∧ ∃ plus : Bool, p.orient = strandSign plus ∧
          (lookupGene st.db p.chrnum p.contig plus p.gid).isSome = true)) :
    ReadDBFileForChr7_step chrDist st line = some st := by
  obtain ⟨s, s1, hs⟩ := hok
  cases hacc : accepted2 chrDist line with
  | none => exact step2_skip chrDist s s1 line hs hacc st
  | some p =>
    rw [step2_eq_insert chrDist st line p hacc]
    unfold ReadDBFileForChr7_insert
    rcases hline p hacc with hseen | ⟨hlt, plus, hsign, hsome⟩
    · rw [if_pos hseen]
    · by_cases hseen : (mapGet st.chr7genes p.gid).isSome = true
      · rw [if_pos hseen]
      · rw [if_neg hseen]
        have hc : st.db[p.chrnum]? = some st.db[p.chrnum] := List.getElem?_eq_getElem hlt
        rw [hc]
        simp only []
        obtain ⟨g, hg⟩ := Option.isSome_iff_exists.mp hsome
        obtain ⟨o, ho, -⟩ :=
          lookupGene_some st.db p.chrnum st.db[p.chrnum] p.contig plus p.gid g hc hg
        have hget := lookupGene_getD st.db p.chrnum st.db[p.chrnum] p.contig hc plus p.gid
        rw [hg] at hget
        have hsame : st.db.set p.chrnum
            (mapSet st.db[p.chrnum] p.contig ((mapGet st.db[p.chrnum] p.contig).getD ⟨[], []⟩)) =
              st.db := by
          rw [ho]
          simp only [Option.getD_some]
          rw [mapSet_same _ _ _ ho]
          exact set_same st.db p.chrnum _ hc
        rcases strandSign_cases p plus hsign with ⟨rfl, hor⟩ | ⟨rfl, hor⟩
        · simp only [if_true] at hget
          rw [if_pos hor, hget]
          simp only [hsame]
        · have hne : ¬ p.orient = ['+'] := by rw [hor]; decide
          simp only [Bool.false_eq_true, if_false] at hget
          rw [if_neg hne, if_pos hor, hget]
          simp only [hsame]

theorem rerun2_run (chrDist : Bool) (st : DBState) (rest : List GoString)
    (hall : ∀ line ∈ rest,
      (∃ s s1 : DBState, ReadDBFileForChr7_step chrDist s line = some s1) ∧
        ∀ p : DBFields, accepted2 chrDist line = some p →
          (mapGet st.chr7genes p.gid).isSome = true ∨
            (p.chrnum < st.db.length ∧ ∃ plus : Bool, p.orient = strandSign plus ∧
              (lookupGene st.db p.chrnum p.contig plus p.gid).isSome = true)) :
    ReadDBFileForChr7 chrDist st rest = some st := by
  induction rest with
  | nil => rfl
  | cons line rest ih =>
    have hl := hall line (List.mem_cons_self _ _)
    rw [ReadDBFileForChr7, rerun2_step chrDist st line hl.1 hl.2]
    exact ih (fun l hm => hall l (List.mem_cons_of_mem _ hm))

theorem rerunInv_init (chrDist : Bool) (st2 : DBState) : RerunInv chrDist st2 [] st2 where
  seen := rfl
  shape := rfl
  look := by
    intro slot c pl gd
    simp [lastAccepted1]

/-- The state left by the two passes is a fixed point of pass 1 and of pass 2
over the same lines. -/
theorem ingestion_fixed_point (chrDist : Bool) (recs : List GoString) (st1 st2 : DBState)
    (h1 : ReadDBFile chrDist initState recs = some st1)
    (h2 : ReadDBFileForChr7 chrDist st1 recs = some st2) :
    ReadDBFile chrDist st2 recs = some st2 ∧ ReadDBFileForChr7 chrDist st2 recs = some st2 := by
  have hE := primaryExact_run chrDist recs [] initState st1 (primaryExact_init chrDist) h1
  have hP := primaryInv_run chrDist recs [] initState st1 (primaryInv_init chrDist) h1
  have hA := alternateInv_run chrDist st1 recs [] st1 st2 (alternateInv_init chrDist st1) h2
  simp only [List.nil_append] at hE hP hA
  have hW : WellKeyed st2.db :=
    wellKeyed_run2 chrDist recs st1 st2
      (wellKeyed_run1 chrDist recs initState st1 wellKeyed_emptyDB h1) h2
  have hlen2 : st2.db.length = 24 := hA.len.trans hE.len
  have hkeep : ∀ line ∈ recs, ∀ p : DBFields, accepted1 chrDist line = some p →
      ∀ plus : Bool, p.orient = strandSign plus →
        ∃ pf pl1 : DBFields,
          firstAccepted1 chrDist recs p.chrnum p.contig plus p.gid = some pf ∧
          lastAccepted1 chrDist recs p.chrnum p.contig plus p.gid = some pl1 ∧
          lookupGene st2.db p.chrnum p.contig plus p.gid =
            some (entryOf pf.gname GRCh pl1) := by
    intro line hline p hacc plus hsign
    obtain ⟨pf, pl1, hF, hL⟩ := firstAccepted1_isSome chrDist recs line hline p hacc
      p.chrnum p.contig plus p.gid (hitsEntry_self p plus hsign)
    refine ⟨pf, pl1, hF, hL, ?_⟩
    apply hA.keep
    rw [hE.look, hF, hL]
  have hrun1 : ReadDBFile chrDist st2 recs = some st2 := by
    obtain ⟨t3, hrun, inv⟩ := rerun_run chrDist st2 recs (by
      intro line hline
      refine ⟨run1_line_ok chrDist recs initState st1 h1 line hline, ?_⟩
      intro p hacc
      obtain ⟨h24, plus, hsign⟩ := hE.valid line hline p hacc
      obtain ⟨pf, pl1, -, -, hl⟩ := hkeep line hline p hacc plus hsign
      exact ⟨hlen2 ▸ h24, plus, hsign, by rw [hl]; rfl⟩) [] st2 (rerunInv_init chrDist st2)
    simp only [List.nil_append] at inv
    have hdb : t3.db = st2.db := by
      apply db_ext t3.db st2.db inv.shape hW
      intro slot c pl gd
      rw [inv.look]
      cases hg : lookupGene st2.db slot c pl gd with
      | none => rfl
      | some g2 =>
        simp only [Option.map_some', Option.some.injEq]
        cases hL : lastAccepted1 chrDist recs slot c pl gd with
        | none => rfl
        | some q =>
          simp only []
          cases hF : firstAccepted1 chrDist recs slot c pl gd with
          | none =>
            have := (lastAccepted1_none_iff chrDist recs slot c pl gd).mpr hF
            rw [hL] at this
            cases this
          | some pf =>
            have h1l := hE.look slot c pl gd
            rw [hF, hL] at h1l
            simp only [] at h1l
            have h2l := hA.keep slot c pl gd _ h1l
            rw [hg] at h2l
            simp only [Option.some.injEq] at h2l
            rw [h2l, entryOf_GENENAME, entryOf_MAP]
    have ht3 : t3 = st2 := by
      cases t3
      cases st2
      simp only [DBState.mk.injEq]
      exact ⟨hdb, inv.seen⟩
    rw [hrun, ht3]
  refine ⟨hrun1, ?_⟩
  apply rerun2_run chrDist st2 recs
  intro line hline
  refine ⟨run2_line_ok chrDist recs st1 st2 h2 line hline, ?_⟩
  intro p hacc
  by_cases hseen : (mapGet st2.chr7genes p.gid).isSome = true
  · exact Or.inl hseen
  · right
    have hunseen : (mapGet st1.chr7genes p.gid).isSome = false := by
      rw [← hA.seen]
      simpa using hseen
    obtain ⟨plus, hsign⟩ := hA.oriented line hline p hacc hunseen
    have h6 := accepted2_chrnum chrDist line p hacc
    have habsent : lookupGene st1.db 6 p.contig plus p.gid = none := by
      cases hl : lookupGene st1.db 6 p.contig plus p.gid with
      | none => rfl
      | some g =>
        have := hP.slot6 _ _ _ _ hl
        rw [hunseen] at this
        cases this
    have hfresh := hA.fresh p.contig plus p.gid hunseen habsent
    have hsome : (firstAccepted2 chrDist recs p.contig plus p.gid).isSome = true := by
      unfold firstAccepted2
      rw [List.find?_isSome]
      exact ⟨p, List.mem_filterMap.mpr ⟨line, hline, hacc⟩, hitsKey_self p plus hsign⟩
    refine ⟨by rw [h6, hlen2]; decide, plus, hsign, ?_⟩
    rw [h6, hfresh]
    simpa using hsome

/-- C11: ingestion is idempotent.  When pass 1 from the empty index followed by
pass 2 over the same lines has left the state `st2`, a second pass 1 over the
same lines started in `st2` (its index and its set `chr7genes`) succeeds, the
second pass 2 after it succeeds, and the index and the set `chr7genes` after
the second run are those after the first run. -/
theorem ingestion_idempotent (chrDist : Bool) (recs : List GoString) (st1 st2 : DBState)
    (h1 : ReadDBFile chrDist initState recs = some st1)
    (h2 : ReadDBFileForChr7 chrDist st1 recs = some st2) :
    ∃ st3 st4 : DBState, ReadDBFile chrDist st2 recs = some st3 ∧
      ReadDBFileForChr7 chrDist st3 recs = some st4 ∧
      st4.db = st2.db ∧ st4.chr7genes = st2.chr7genes := by
  obtain ⟨hr1, hr2⟩ := ingestion_fixed_point chrDist recs st1 st2 h1 h2
  exact ⟨st2, st2, hr1, hr2, rfl, rfl⟩

/-- Witness of C11 on `exampleRecsAgain`, where gene 100 has two primary records
with different coordinates: the second run first resets the coordinates to
those of the first record and then to those of the second. -/
theorem ingestion_idempotent_witness :
    ReadDBFile false initState exampleRecsAgain = some exampleStateAgain ∧
      ReadDBFileForChr7 false exampleStateAgain exampleRecsAgain = some exampleStateAgain2 ∧
      ReadDBFile_step false exampleStateAgain2 examplePrimary ≠ some exampleStateAgain2 ∧
      ∃ st3 st4 : DBState, ReadDBFile false exampleStateAgain2 exampleRecsAgain = some st3 ∧
        ReadDBFileForChr7 false st3 exampleRecsAgain = some st4 ∧
        st4.db = exampleStateAgain2.db ∧ st4.chr7genes = exampleStateAgain2.chr7genes :=
  ⟨by decide, by decide, by decide,
    ingestion_idempotent false exampleRecsAgain exampleStateAgain exampleStateAgain2
      (by decide) (by decide)⟩

end Upstream
